import Mathlib

/-!
A shallow embedding of the SL-to-C compiler (lexer, recursive-descent parser,
code generator) and proofs about the specification's claims.

Conventions of the embedding:
* Machine `usize` positions are `Nat`; the source only ever increments them.
* Source text is a `List Char`; positions count characters.  The original
  compares character positions against the byte length of the text; the two
  agree on ASCII input, and every concrete input in this file is ASCII.
* A Rust `panic!` (out-of-bounds index, failed `unwrap`) is modelled as the
  explicit result `Res.crash`.
* Every recursive function takes a fuel argument and returns `Res.fuelOut`
  (or `none` for the lexer, which cannot crash) when the fuel is exhausted,
  so that genuine non-termination of the source is expressible as
  "for every fuel the run is still unfinished".

Names follow the source (`parse_call`, `codegen_type`, ...); `Annotation` is
shortened to `Annot` and the span field `end` (a Lean keyword) is `stop`.
-/

/-- Result of a fueled, possibly panicking computation: `ok` is a normal
return, `crash` is a Rust panic, `fuelOut` means the fuel ran out. -/
inductive Res (α : Type) where
  | ok : α → Res α
  | crash : Res α
  | fuelOut : Res α
  deriving Repr, DecidableEq

/-- `TokenLocation`: a half-open span `[start, stop)` into the source
(the source calls the second field `end`). -/
structure Loc where
  start : Nat
  stop : Nat
  deriving Repr, DecidableEq

/-- The three error kinds of the compiler, each carrying message and span. -/
inductive Err where
  | SyntaxError : String → Loc → Err
  | TypeError : String → Loc → Err
  | RuntimeError : String → Loc → Err
  deriving Repr, DecidableEq

/-- Token kinds, one constructor per variant of the source enum
(`Annotation` is shortened to `Annot`). -/
inductive TokenKind where
  | Identifier | StringLit | CharLit | NumberLit
  | Annot | Struct | End | Enum | External | Inline | Func | Type | Var
  | Return | Import | As | SizeOf | New | True | False | Null
  | If | Else | While | For | In | Switch | Case | Break | Continue | Default
  | Int | Usize | String | CString | Char | Bool | Void
  | Volatile | Const | Restrict
  | Colon | Comma | Dot | At | Pipe | Ampersand
  | OpenParen | CloseParen | OpenBracket | CloseBracket
  | Equal | EqualEqual | Bang | BangEqual
  | Greater | GreaterEqual | Less | LessEqual
  | Plus | PlusEqual | Minus | MinusEqual | Star | StarEqual
  | Slash | SlashEqual | Percent | PercentEqual
  | FatArrow | Range
  | Newline | Error | EndOfFile
  deriving Repr, DecidableEq

/-- A token: kind, textual value, span. -/
structure Token where
  kind : TokenKind
  value : String
  location : Loc
  deriving Repr, DecidableEq

/-- The `'\0'` character the source's `current()` returns past the end. -/
def nulChar : Char := Char.ofNat 0

/-- The backslash character. -/
def backslashChar : Char := Char.ofNat 92

/-- The double-quote character. -/
def quoteChar : Char := Char.ofNat 34

/-- The single-quote character. -/
def apostChar : Char := Char.ofNat 39

/-- `Lexer::current`: the character at position `p`, or `'\0'` past the end. -/
def lxChar (ct : List Char) (p : Nat) : Char :=
  (ct.get? p).getD nulChar

/-- Keyword table of `Lexer::lex`'s identifier branch. -/
def keywordKind (s : String) : TokenKind :=
  if s = "annotation" then .Annot
  else if s = "struct" then .Struct
  else if s = "enum" then .Enum
  else if s = "end" then .End
  else if s = "external" then .External
  else if s = "inline" then .Inline
  else if s = "func" then .Func
  else if s = "type" then .Type
  else if s = "var" then .Var
  else if s = "return" then .Return
  else if s = "import" then .Import
  else if s = "as" then .As
  else if s = "sizeof" then .SizeOf
  else if s = "new" then .New
  else if s = "true" then .True
  else if s = "false" then .False
  else if s = "null" then .Null
  else if s = "if" then .If
  else if s = "else" then .Else
  else if s = "while" then .While
  else if s = "for" then .For
  else if s = "in" then .In
  else if s = "switch" then .Switch
  else if s = "case" then .Case
  else if s = "break" then .Break
  else if s = "continue" then .Continue
  else if s = "default" then .Default
  else if s = "int" then .Int
  else if s = "usize" then .Usize
  else if s = "string" then .String
  else if s = "cstring" then .CString
  else if s = "char" then .Char
  else if s = "bool" then .Bool
  else if s = "void" then .Void
  else if s = "volatile" then .Volatile
  else if s = "const" then .Const
  else if s = "restrict" then .Restrict
  else .Identifier

/-- The escape table shared by the string- and character-literal loops:
the value pushed for `\c`, or `none` when `\c` is an invalid escape. -/
def escMap (c : Char) : Option String :=
  if c = 'n' then some "\\n"
  else if c = 't' then some "\\t"
  else if c = 'r' then some "\\r"
  else if c = '0' then some "\\0"
  else if c = apostChar then some (Char.toString apostChar)
  else if c = quoteChar then some ((Char.toString backslashChar) ++ (Char.toString quoteChar))
  else if c = backslashChar then some ((Char.toString backslashChar) ++ (Char.toString backslashChar))
  else none

/-- Lexer state: source text, tokens so far, cursor, errors so far. -/
structure LexSt where
  contents : List Char
  tokens : List Token
  current : Nat
  errors : List Err
  deriving Repr, DecidableEq

/-- The identifier scan loop: consume while
`current < len && alphanumeric || current == '_'` (the source's own
operator precedence), returning the value and the new position. -/
def scanIdent : Nat → List Char → Nat → String → Option (String × Nat)
  | 0, _, _, _ => none
  | f+1, ct, p, acc =>
    if (p < ct.length ∧ (lxChar ct p).isAlphanum) ∨ lxChar ct p = '_' then
      scanIdent f ct (p+1) (acc ++ (lxChar ct p).toString)
    else some (acc, p)

/-- The number scan loop: consume while numeric. -/
def scanNumber : Nat → List Char → Nat → String → Option (String × Nat)
  | 0, _, _, _ => none
  | f+1, ct, p, acc =>
    if p < ct.length ∧ (lxChar ct p).isDigit then
      scanNumber f ct (p+1) (acc ++ (lxChar ct p).toString)
    else some (acc, p)

/-- The quoted-literal body loop, shared verbatim by the string and the
character branches of the source (`term` is `"` or `'`).  On a backslash it
advances onto the escape character; a valid escape pushes the mapped text, an
invalid one records a `SyntaxError` and advances once more; either way the
loop's trailing advance then runs, so an invalid escape skips the character
after it.  Returns the value, the position of the terminator (or the end),
and the errors. -/
def scanQuoted : Nat → Char → List Char → Nat → String → List Err →
    Option (String × Nat × List Err)
  | 0, _, _, _, _, _ => none
  | f+1, term, ct, p, acc, errs =>
    if p < ct.length ∧ lxChar ct p ≠ term then
      if lxChar ct p = backslashChar then
        match escMap (lxChar ct (p+1)) with
        | some s => scanQuoted f term ct (p+2) (acc ++ s) errs
        | none =>
          scanQuoted f term ct (p+3) acc
            (errs ++ [Err.SyntaxError "Invalid escape sequence" ⟨p+1, p+1⟩])
      else scanQuoted f term ct (p+1) (acc ++ (lxChar ct p).toString) errs
    else some (acc, p, errs)

/-- The `//`-comment loop: position of the first newline at or after `p`
(or the end of the text). -/
def skipLine : Nat → List Char → Nat → Option Nat
  | 0, _, _ => none
  | f+1, ct, p =>
    if p < ct.length ∧ lxChar ct p ≠ '\n' then skipLine f ct (p+1)
    else some p

/-- Push a token (helper for the big dispatch below). -/
def pushTok (st : LexSt) (k : TokenKind) (v : String) (s e : Nat) : LexSt :=
  { st with tokens := st.tokens ++ [⟨k, v, ⟨s, e⟩⟩] }

/-- `Lexer::lex`: the main scan loop, one dispatch on the current character
per iteration, mirroring the source's `match` arm for arm. -/
def lexLoop : Nat → LexSt → Option LexSt
  | 0, _ => none
  | f+1, st =>
    if st.current < st.contents.length then
      let ct := st.contents
      let p := st.current
      let c := lxChar ct p
      if c = '\t' ∨ c = ' ' ∨ c = '\r' then
        lexLoop f { st with current := p + 1 }
      else if c = '\n' then
        lexLoop f (pushTok { st with current := p + 1 } .Newline "\n" (p+1) (p+1))
      else if c.isAlpha ∨ c = '_' then
        match scanIdent f ct p "" with
        | none => none
        | some (v, q) =>
          lexLoop f (pushTok { st with current := q } (keywordKind v) v p q)
      else if c = quoteChar then
        match scanQuoted f quoteChar ct (p+1) "" st.errors with
        | none => none
        | some (v, q, errs) =>
          lexLoop f (pushTok { st with current := q + 1, errors := errs }
            .StringLit v p (q+1))
      else if c = apostChar then
        match scanQuoted f apostChar ct (p+1) "" st.errors with
        | none => none
        | some (v, q, errs) =>
          lexLoop f (pushTok { st with current := q + 1, errors := errs }
            .CharLit v p (q+1))
      else if c.isDigit then
        match scanNumber f ct p "" with
        | none => none
        | some (v, q) =>
          lexLoop f (pushTok { st with current := q } .NumberLit v p q)
      else if c = ':' then
        lexLoop f (pushTok { st with current := p + 1 } .Colon ":" p (p+1))
      else if c = ',' then
        lexLoop f (pushTok { st with current := p + 1 } .Comma "," p (p+1))
      else if c = '.' then
        if lxChar ct (p+1) = '.' then
          lexLoop f (pushTok { st with current := p + 2 } .Range ".." p (p+2))
        else
          lexLoop f (pushTok { st with current := p + 1 } .Dot "." p (p+1))
      else if c = '@' then
        lexLoop f (pushTok { st with current := p + 1 } .At "@" p (p+1))
      else if c = '|' then
        lexLoop f (pushTok { st with current := p + 1 } .Pipe "|" p (p+1))
      else if c = '&' then
        lexLoop f (pushTok { st with current := p + 1 } .Ampersand "&" p (p+1))
      else if c = '(' then
        lexLoop f (pushTok { st with current := p + 1 } .OpenParen "(" p (p+1))
      else if c = ')' then
        lexLoop f (pushTok { st with current := p + 1 } .CloseParen ")" p (p+1))
      else if c = '[' then
        lexLoop f (pushTok { st with current := p + 1 } .OpenBracket "[" p (p+1))
      else if c = ']' then
        lexLoop f (pushTok { st with current := p + 1 } .CloseBracket "]" p (p+1))
      else if c = '=' then
        if p + 1 < ct.length ∧ lxChar ct (p+1) = '>' then
          lexLoop f (pushTok { st with current := p + 2 } .FatArrow "=>" p (p+2))
        else if p + 1 < ct.length ∧ lxChar ct (p+1) = '=' then
          lexLoop f (pushTok { st with current := p + 2 } .EqualEqual "==" p (p+2))
        else
          lexLoop f (pushTok { st with current := p + 1 } .Equal "=" p (p+1))
      else if c = '!' then
        if p + 1 < ct.length ∧ lxChar ct (p+1) = '=' then
          lexLoop f (pushTok { st with current := p + 2 } .BangEqual "!=" p (p+2))
        else
          lexLoop f (pushTok { st with current := p + 1 } .Bang "!" p (p+1))
      else if c = '<' then
        if p + 1 < ct.length ∧ lxChar ct (p+1) = '=' then
          lexLoop f (pushTok { st with current := p + 2 } .LessEqual "<=" p (p+2))
        else
          lexLoop f (pushTok { st with current := p + 1 } .Less "<" p (p+1))
      else if c = '>' then
        if p + 1 < ct.length ∧ lxChar ct (p+1) = '=' then
          lexLoop f (pushTok { st with current := p + 2 } .GreaterEqual ">=" p (p+2))
        else
          lexLoop f (pushTok { st with current := p + 1 } .Greater ">" p (p+1))
      else if c = '+' then
        if p + 1 < ct.length ∧ lxChar ct (p+1) = '=' then
          lexLoop f (pushTok { st with current := p + 2 } .PlusEqual "+=" p (p+2))
        else
          lexLoop f (pushTok { st with current := p + 1 } .Plus "+" p (p+1))
      else if c = '-' then
        if p + 1 < ct.length ∧ lxChar ct (p+1) = '=' then
          lexLoop f (pushTok { st with current := p + 2 } .MinusEqual "-=" p (p+2))
        else
          lexLoop f (pushTok { st with current := p + 1 } .Minus "-" p (p+1))
      else if c = '*' then
        if p + 1 < ct.length ∧ lxChar ct (p+1) = '=' then
          lexLoop f (pushTok { st with current := p + 2 } .StarEqual "*=" p (p+2))
        else
          lexLoop f (pushTok { st with current := p + 1 } .Star "*" p (p+1))
      else if c = '/' then
        if lxChar ct (p+1) = '/' then
          match skipLine f ct (p+2) with
          | none => none
          | some q => lexLoop f { st with current := q + 1 }
        else if p + 1 < ct.length ∧ lxChar ct (p+1) = '=' then
          lexLoop f (pushTok { st with current := p + 2 } .SlashEqual "/=" p (p+2))
        else
          lexLoop f (pushTok { st with current := p + 1 } .Slash "/" p (p+1))
      else if c = '%' then
        if p + 1 < ct.length ∧ lxChar ct (p+1) = '=' then
          lexLoop f (pushTok { st with current := p + 2 } .PercentEqual "%=" p (p+2))
        else
          lexLoop f (pushTok { st with current := p + 1 } .Percent "%" p (p+1))
      else
        let e := Err.SyntaxError ("Unexpected character: " ++ c.toString) ⟨p, p+1⟩
        lexLoop f { st with current := p + 1, errors := st.errors ++ [e] }
    else some st

/-- Run the lexer on a source string from the initial state. -/
def lexRun (fuel : Nat) (s : String) : Option LexSt :=
  lexLoop fuel ⟨s.toList, [], 0, []⟩

/-! ## The abstract syntax tree

`Type` and `Expression` are mutually recursive in the source (`Array` types
carry a size expression, casts and `sizeof` carry types), so they form one
mutual block here; `Statement` then references both, itself, and the
annotation-use record.  Constructor and field names follow the source;
`Statement::Annotation` becomes `AnnotDecl` and the annotation-use struct
becomes `AnnotUse`. -/

mutual
inductive Ty where
  | Int : Loc → Ty
  | Usize : Loc → Ty
  | String : Loc → Ty
  | CString : Loc → Ty
  | Char : Loc → Ty
  | Bool : Loc → Ty
  | Void : Loc → Ty
  | Struct : String → Loc → Ty
  | Enum : String → Loc → Ty
  | Function : List Ty → Ty → Loc → Ty
  | Pointer : Ty → Loc → Ty
  | Array : Ty → Expr → Loc → Ty
  | DynamicArray : Ty → Loc → Ty
  | Volatile : Ty → Loc → Ty
  | Const : Ty → Loc → Ty
  | Restrict : Ty → Loc → Ty
  | GenericType : String → Loc → Ty
  | Unknown : String → Loc → Ty
  | Error : Err → Loc → Ty
  deriving Repr

inductive Expr where
  | Number : Int → Loc → Expr
  | String : String → Loc → Expr
  | Char : String → Loc → Expr
  | Boolean : Bool → Loc → Expr
  | Identifier : String → Loc → Expr
  | Null : Expr
  | Call : String → List Expr → Loc → Expr
  | GenericCall : String → List Ty → List Expr → Loc → Expr
  | Member : Expr → Expr → Loc → Expr
  | NamedArgument : String → Expr → Loc → Expr
  | Cast : Expr → Ty → Loc → Expr
  | SizeOf : Ty → Loc → Expr
  | Index : Expr → Expr → Loc → Expr
  | Array : List Expr → Loc → Expr
  | New : String → List Expr → Loc → Expr
  | Ternary : Expr → Expr → Expr → Loc → Expr
  | Assignment : Expr → Expr → Loc → Expr
  | Binary : TokenKind → Expr → Expr → Loc → Expr
  | Unary : TokenKind → Expr → Loc → Expr
  | Grouping : Expr → Loc → Expr
  | AddressOf : Expr → Loc → Expr
  | Dereference : Expr → Loc → Expr
  | Range : Expr → Expr → Loc → Expr
  | Error : Err → Expr
  | Empty : Expr
  deriving Repr
end

/-- An annotation use `@name(args…)` attached to a statement. -/
structure AnnotUse where
  name : String
  arguments : List Expr
  location : Loc
  deriving Repr

inductive Stmt where
  | Generic : Stmt → List (String × Option Ty) → Loc → Stmt
  | Annotated : Stmt → List AnnotUse → Loc → Stmt
  | AnnotDecl : String → List (String × Ty) → Loc → Stmt
  | Struct : String → List (String × Ty) → Loc → Stmt
  | Enum : String → Ty → List (String × Expr × Loc) → Loc → Stmt
  | TypeAlias : String → List Ty → Loc → Stmt
  | Function : String → List (String × Ty) → Ty → List Stmt → Loc → Stmt
  | StructFunction : String → String → List (String × Ty) → Ty → List Stmt → Loc → Stmt
  | Variable : String → Ty → Expr → Loc → Stmt
  | Constant : String → Ty → Expr → Loc → Stmt
  | Return : Expr → Loc → Stmt
  | While : Expr → List Stmt → Loc → Stmt
  | If : Expr → List Stmt → List Stmt → Loc → Stmt
  | External : Stmt → Loc → Stmt
  | Inline : Stmt → Loc → Stmt
  | Import : String → Loc → Stmt
  | Expression : Expr → Loc → Stmt
  deriving Repr

/-- `Error::location`. -/
def errLoc : Err → Loc
  | .SyntaxError _ l => l
  | .TypeError _ l => l
  | .RuntimeError _ l => l

/-- `Expression::location`. -/
def exprLocation : Expr → Loc
  | .Number _ l => l
  | .String _ l => l
  | .Char _ l => l
  | .Boolean _ l => l
  | .Identifier _ l => l
  | .Null => ⟨0, 0⟩
  | .Call _ _ l => l
  | .GenericCall _ _ _ l => l
  | .Member _ _ l => l
  | .NamedArgument _ _ l => l
  | .Cast _ _ l => l
  | .SizeOf _ l => l
  | .Index _ _ l => l
  | .Array _ l => l
  | .New _ _ l => l
  | .Ternary _ _ _ l => l
  | .Assignment _ _ l => l
  | .Binary _ _ _ l => l
  | .Unary _ _ l => l
  | .Grouping _ l => l
  | .AddressOf _ l => l
  | .Dereference _ l => l
  | .Range _ _ l => l
  | .Error e => errLoc e
  | .Empty => ⟨0, 0⟩

/-- `Statement::location`. -/
def stmtLocation : Stmt → Loc
  | .Generic _ _ l => l
  | .Annotated _ _ l => l
  | .AnnotDecl _ _ l => l
  | .Struct _ _ l => l
  | .Enum _ _ _ l => l
  | .TypeAlias _ _ l => l
  | .Function _ _ _ _ l => l
  | .StructFunction _ _ _ _ _ l => l
  | .Variable _ _ _ l => l
  | .Constant _ _ _ l => l
  | .Return _ l => l
  | .While _ _ l => l
  | .If _ _ _ l => l
  | .External _ l => l
  | .Inline _ l => l
  | .Import _ l => l
  | .Expression _ l => l

/-- The `{:?}` rendering of a token kind (the variant name), used in the
parser's error messages. -/
def kindRepr (k : TokenKind) : String :=
  (toString (repr k)).drop 10

/-- A rough `{:?}` rendering of expressions, used only inside two parser
error-message strings (no claim depends on its exact text). -/
def exprDebug : Expr → String
  | .Identifier n _ => "Identifier(" ++ n ++ ")"
  | .Number n _ => "Number(" ++ toString n ++ ")"
  | .String s _ => "String(" ++ s ++ ")"
  | .Char s _ => "Char(" ++ s ++ ")"
  | .Boolean b _ => "Boolean(" ++ toString b ++ ")"
  | .Null => "Null"
  | .Call n _ _ => "Call(" ++ n ++ ", ..)"
  | .GenericCall n _ _ _ => "GenericCall(" ++ n ++ ", ..)"
  | .Member _ _ _ => "Member(..)"
  | .NamedArgument n _ _ => "NamedArgument(" ++ n ++ ", ..)"
  | .Cast _ _ _ => "Cast(..)"
  | .SizeOf _ _ => "SizeOf(..)"
  | .Index _ _ _ => "Index(..)"
  | .Array _ _ => "Array(..)"
  | .New n _ _ => "New(" ++ n ++ ", ..)"
  | .Ternary _ _ _ _ => "Ternary(..)"
  | .Assignment _ _ _ => "Assignment(..)"
  | .Binary _ _ _ _ => "Binary(..)"
  | .Unary _ _ _ => "Unary(..)"
  | .Grouping _ _ => "Grouping(..)"
  | .AddressOf _ _ => "AddressOf(..)"
  | .Dereference _ _ => "Dereference(..)"
  | .Range _ _ _ => "Range(..)"
  | .Error _ => "Error(..)"
  | .Empty => "Empty"

/-- Rust's `str::parse::<i64>`: optional sign, decimal digits, 64-bit signed
range check; `none` models the `Err` that the source immediately `unwrap`s. -/
def parseI64 (s : String) : Option Int :=
  let cs := s.toList
  let signed : Bool × List Char :=
    match cs with
    | '-' :: rest => (true, rest)
    | '+' :: rest => (false, rest)
    | _ => (false, cs)
  if signed.2 = [] ∨ ¬ signed.2.all Char.isDigit then none
  else
    let n : Nat := signed.2.foldl (fun a c => a * 10 + (c.toNat - 48)) 0
    if signed.1 then
      if n ≤ 2 ^ 63 then some (-(n : Int)) else none
    else
      if n ≤ 2 ^ 63 - 1 then some (n : Int) else none

/-! ## The parser -/

/-- Parser state: token list, accumulated statements, cursor, errors. -/
structure PSt where
  tokens : List Token
  statements : List Stmt
  current : Nat
  errors : List Err
  deriving Repr

/-- The parser's effect monad: state plus panic plus fuel exhaustion. -/
def PM (α : Type) : Type := PSt → Res (α × PSt)

/-- Monadic return for `PM`. -/
def PM.pure (a : α) : PM α := fun st => .ok (a, st)

/-- Monadic bind for `PM`. -/
def PM.bind (x : PM α) (g : α → PM β) : PM β := fun st =>
  match x st with
  | .ok (a, st') => g a st'
  | .crash => .crash
  | .fuelOut => .fuelOut

instance : Monad PM where
  pure := PM.pure
  bind := PM.bind

/-- A Rust panic inside the parser. -/
def pCrash : PM α := fun _ => .crash

/-- Fuel exhaustion marker. -/
def pOut : PM α := fun _ => .fuelOut

/-- Read the whole state. -/
def pGet : PM PSt := fun st => .ok (st, st)

/-- Record a parse error. -/
def pErr (e : Err) : PM Unit := fun st => .ok ((), { st with errors := st.errors ++ [e] })

/-- Append a parsed top-level statement. -/
def pPush (s : Stmt) : PM Unit := fun st =>
  .ok ((), { st with statements := st.statements ++ [s] })

/-- `Parser::advance`. -/
def pAdvance : PM Unit := fun st => .ok ((), { st with current := st.current + 1 })

/-- `Parser::current`: the token under the cursor, or a synthetic
`EndOfFile` token at the end of the last token; panics (`unwrap` on
`last()`) when the token list is empty. -/
def pCurrent : PM Token := fun st =>
  match st.tokens.get? st.current with
  | some t => .ok (t, st)
  | none =>
    match st.tokens.getLast? with
    | some t => .ok (⟨.EndOfFile, "", ⟨t.location.stop, t.location.stop⟩⟩, st)
    | none => .crash

/-- Direct index into the token list (`self.tokens[i]`): panics out of
bounds. -/
def pTokenAt (i : Nat) : PM Token := fun st =>
  match st.tokens.get? i with
  | some t => .ok (t, st)
  | none => .crash

/-- `Parser::expect`: at `EndOfFile` or on a kind mismatch it returns a
sentinel `Error`-kind token *without advancing*; only on a match does it
advance. -/
def expect (k : TokenKind) : PM Token := do
  let c ← pCurrent
  if c.kind = .EndOfFile then
    fun st =>
      match st.tokens.getLast? with
      | some t => .ok (⟨.Error, "unexpected end of file",
          ⟨t.location.stop, t.location.stop⟩⟩, st)
      | none => .crash
  else if c.kind = k then do
    pAdvance
    pure c
  else
    pure ⟨.Error, "expected " ++ kindRepr k ++ ", but got " ++ kindRepr c.kind,
      c.location⟩

/-- The shared tail of `parse_call`'s two suffix forms: project the callee
name out of the receiver expression; anything but an identifier records a
`SyntaxError` (rendered with `{:?}`) and yields the empty name. -/
def callee_name (e : Expr) : PM String :=
  match e with
  | .Identifier n _ => pure n
  | _ => do
    let c ← pCurrent
    pErr (.SyntaxError ("Expected identifier, found " ++ exprDebug e) c.location)
    pure ""

mutual

/-- `Parser::parse`'s main loop: skip newlines, parse statements, until the
cursor passes the end of the token list. -/
def parse_loop : Nat → PM Unit
  | 0 => pOut
  | f+1 => do
    let st ← pGet
    if st.current < st.tokens.length then do
      let t ← pCurrent
      if t.kind = .Newline then do
        pAdvance
        parse_loop f
      else do
        let s ← parse_statement f
        pPush s
        parse_loop f
    else pure ()

/-- `Parser::parse_statement`: leading-keyword dispatch. -/
def parse_statement : Nat → PM Stmt
  | 0 => pOut
  | f+1 => do
    let c ← pCurrent
    match c.kind with
    | .Annot => parse_annot f
    | .At => parse_annotated f
    | .External => parse_external f
    | .Inline => parse_inline f
    | .Struct => parse_struct f
    | .Enum => parse_enum f
    | .Type => parse_type_alias f
    | .Func => parse_function f
    | .Var => parse_variable f
    | .Const => parse_constant f
    | .Return => parse_return f
    | .Import => parse_import f
    | .While => parse_while f
    | .If => parse_if f
    | _ => do
      let e ← parse_expression f
      let c2 ← pCurrent
      pure (.Expression e c2.location)

/-- `Parser::parse_annotation` (annotation declaration). -/
def parse_annot : Nat → PM Stmt
  | 0 => pOut
  | f+1 => do
    let _ ← expect .Annot
    let nl ← pCurrent
    let nameTok ← expect .Identifier
    let c ← pCurrent
    if c.kind = .End then do
      pAdvance
      let c2 ← pCurrent
      pure (.AnnotDecl nameTok.value [] c2.location)
    else do
      let _ ← expect .Newline
      let fields ← parse_annot_fields f []
      let _ ← expect .End
      pure (.AnnotDecl nameTok.value fields nl.location)

/-- The field loop of `parse_annotation` (no blank-line skipping here). -/
def parse_annot_fields : Nat → List (String × Ty) → PM (List (String × Ty))
  | 0, _ => pOut
  | f+1, acc => do
    let c ← pCurrent
    if c.kind = .End then pure acc
    else do
      let n ← expect .Identifier
      let _ ← expect .Colon
      let t ← parse_type f
      let _ ← expect .Newline
      parse_annot_fields f (acc ++ [(n.value, t)])

/-- `Parser::parse_annotated`: one or more `@name(args)` uses, then the
annotated statement. -/
def parse_annotated : Nat → PM Stmt
  | 0 => pOut
  | f+1 => do
    let annots ← parse_annot_uses f []
    let s ← parse_statement f
    pure (.Annotated s annots (stmtLocation s))

/-- The `@`-use loop of `parse_annotated`. -/
def parse_annot_uses : Nat → List AnnotUse → PM (List AnnotUse)
  | 0, _ => pOut
  | f+1, acc => do
    let c ← pCurrent
    if c.kind = .At then do
      let _ ← expect .At
      let nl ← pCurrent
      let nameTok ← expect .Identifier
      let c2 ← pCurrent
      let args ←
        if c2.kind = .OpenParen then do
          let _ ← expect .OpenParen
          let args ← parse_annot_args f []
          let _ ← expect .CloseParen
          pure args
        else pure []
      let _ ← expect .Newline
      parse_annot_uses f (acc ++ [⟨nameTok.value, args, nl.location⟩])
    else pure acc

/-- The argument loop of an annotation use. -/
def parse_annot_args : Nat → List Expr → PM (List Expr)
  | 0, _ => pOut
  | f+1, acc => do
    let c ← pCurrent
    if c.kind = .CloseParen then pure acc
    else do
      let e ← parse_expression f
      let c2 ← pCurrent
      if c2.kind = .Comma then do
        let _ ← expect .Comma
        parse_annot_args f (acc ++ [e])
      else parse_annot_args f (acc ++ [e])

/-- `Parser::parse_external`. -/
def parse_external : Nat → PM Stmt
  | 0 => pOut
  | f+1 => do
    let l ← pCurrent
    let _ ← expect .External
    let s ← parse_statement f
    pure (.External s l.location)

/-- `Parser::parse_inline`. -/
def parse_inline : Nat → PM Stmt
  | 0 => pOut
  | f+1 => do
    let l ← pCurrent
    let _ ← expect .Inline
    let s ← parse_statement f
    pure (.Inline s l.location)

/-- `Parser::parse_struct`. -/
def parse_struct : Nat → PM Stmt
  | 0 => pOut
  | f+1 => do
    let _ ← expect .Struct
    let l ← pCurrent
    let nameTok ← expect .Identifier
    let c ← pCurrent
    if c.kind = .End then do
      pAdvance
      pure (.Struct nameTok.value [] l.location)
    else do
      let _ ← expect .Newline
      let fields ← parse_struct_fields f []
      let _ ← expect .End
      pure (.Struct nameTok.value fields l.location)

/-- The field loop of `parse_struct` (blank newlines skipped by `advance`). -/
def parse_struct_fields : Nat → List (String × Ty) → PM (List (String × Ty))
  | 0, _ => pOut
  | f+1, acc => do
    let c ← pCurrent
    if c.kind = .End then pure acc
    else if c.kind = .Newline then do
      pAdvance
      parse_struct_fields f acc
    else do
      let n ← expect .Identifier
      let _ ← expect .Colon
      let t ← parse_type f
      let _ ← expect .Newline
      parse_struct_fields f (acc ++ [(n.value, t)])

/-- `Parser::parse_enum`. -/
def parse_enum : Nat → PM Stmt
  | 0 => pOut
  | f+1 => do
    let _ ← expect .Enum
    let l ← pCurrent
    let nameTok ← expect .Identifier
    let _ ← expect .Colon
    let t ← parse_type f
    let _ ← expect .Newline
    let vars ← parse_enum_variants f []
    let _ ← expect .End
    pure (.Enum nameTok.value t vars l.location)

/-- The variant loop of `parse_enum`. -/
def parse_enum_variants : Nat → List (String × Expr × Loc) →
    PM (List (String × Expr × Loc))
  | 0, _ => pOut
  | f+1, acc => do
    let c ← pCurrent
    if c.kind = .End then pure acc
    else if c.kind = .Newline then do
      pAdvance
      parse_enum_variants f acc
    else do
      let vl ← pCurrent
      let n ← expect .Identifier
      let _ ← expect .Equal
      let v ← parse_expression f
      let _ ← expect .Newline
      parse_enum_variants f (acc ++ [(n.value, v, vl.location)])

/-- `Parser::parse_type_alias` (consumes neither the final newline nor any
terminator). -/
def parse_type_alias : Nat → PM Stmt
  | 0 => pOut
  | f+1 => do
    let _ ← expect .Type
    let l ← pCurrent
    let nameTok ← expect .Identifier
    let _ ← expect .Equal
    let tys ← parse_type_alias_tys f []
    pure (.TypeAlias nameTok.value tys l.location)

/-- The `T | U | …` loop of `parse_type_alias`. -/
def parse_type_alias_tys : Nat → List Ty → PM (List Ty)
  | 0, _ => pOut
  | f+1, acc => do
    let c ← pCurrent
    if c.kind = .Newline then pure acc
    else do
      let t ← parse_type f
      let c2 ← pCurrent
      if c2.kind = .Pipe then do
        let _ ← expect .Pipe
        parse_type_alias_tys f (acc ++ [t])
      else parse_type_alias_tys f (acc ++ [t])

/-- `Parser::parse_function`: plain function, struct method (`Name.method`),
optionally generic (`[T, U: Bound]`), with `=>`-sugar or `end`-terminated
body. -/
def parse_function : Nat → PM Stmt
  | 0 => pOut
  | f+1 => do
    let _ ← expect .Func
    let l ← pCurrent
    let n1 ← expect .Identifier
    let c1 ← pCurrent
    let names ←
      if c1.kind = .Dot then do
        let _ ← expect .Dot
        let n2 ← expect .Identifier
        pure (n1.value, n2.value)
      else pure ("", n1.value)
    let c2 ← pCurrent
    let tps ←
      if c2.kind = .OpenBracket then do
        let _ ← expect .OpenBracket
        let tps ← parse_type_params f []
        let _ ← expect .CloseBracket
        pure tps
      else pure []
    let _ ← expect .OpenParen
    let args ← parse_func_args f []
    let _ ← expect .CloseParen
    let c3 ← pCurrent
    let ret ←
      if c3.kind = .Colon then do
        let _ ← expect .Colon
        parse_type f
      else pure (Ty.Void c3.location)
    let c4 ← pCurrent
    let body ←
      if c4.kind = .FatArrow then do
        let _ ← expect .FatArrow
        let e ← parse_expression f
        let _ ← expect .Newline
        pure [Stmt.Return e (exprLocation e)]
      else do
        let b ← parse_func_body f []
        let _ ← expect .End
        pure b
    let base := Stmt.Function names.2 args ret body l.location
    let base := if names.1 ≠ "" then
        Stmt.StructFunction names.1 names.2 args ret body l.location
      else base
    pure (if tps.length > 0 then Stmt.Generic base tps l.location else base)

/-- The `[T, U: Bound]` loop of `parse_function`. -/
def parse_type_params : Nat → List (String × Option Ty) →
    PM (List (String × Option Ty))
  | 0, _ => pOut
  | f+1, acc => do
    let c ← pCurrent
    if c.kind = .CloseBracket then pure acc
    else do
      let n ← expect .Identifier
      let c2 ← pCurrent
      let bound ←
        if c2.kind = .Colon then do
          let _ ← expect .Colon
          let t ← parse_type f
          pure (some t)
        else pure none
      let c3 ← pCurrent
      if c3.kind = .Comma then do
        let _ ← expect .Comma
        parse_type_params f (acc ++ [(n.value, bound)])
      else parse_type_params f (acc ++ [(n.value, bound)])

/-- The `(name: type, …)` parameter loop of `parse_function`. -/
def parse_func_args : Nat → List (String × Ty) → PM (List (String × Ty))
  | 0, _ => pOut
  | f+1, acc => do
    let c ← pCurrent
    if c.kind = .CloseParen then pure acc
    else do
      let n ← expect .Identifier
      let _ ← expect .Colon
      let t ← parse_type f
      let c2 ← pCurrent
      if c2.kind = .Comma then do
        let _ ← expect .Comma
        parse_func_args f (acc ++ [(n.value, t)])
      else parse_func_args f (acc ++ [(n.value, t)])

/-- The statement loop of a function body (newlines skipped via `expect`). -/
def parse_func_body : Nat → List Stmt → PM (List Stmt)
  | 0, _ => pOut
  | f+1, acc => do
    let c ← pCurrent
    if c.kind = .End then pure acc
    else if c.kind = .Newline then do
      let _ ← expect .Newline
      parse_func_body f acc
    else do
      let s ← parse_statement f
      parse_func_body f (acc ++ [s])

/-- `Parser::parse_variable` (type and initializer both optional). -/
def parse_variable : Nat → PM Stmt
  | 0 => pOut
  | f+1 => do
    let _ ← expect .Var
    let l ← pCurrent
    let nameTok ← expect .Identifier
    let c ← pCurrent
    let t ←
      if c.kind = .Colon then do
        let _ ← expect .Colon
        parse_type f
      else pure (Ty.Unknown "" c.location)
    let c2 ← pCurrent
    let v ←
      if c2.kind = .Equal then do
        let _ ← expect .Equal
        parse_expression f
      else pure Expr.Empty
    let _ ← expect .Newline
    pure (.Variable nameTok.value t v l.location)

/-- `Parser::parse_constant` (type and value required). -/
def parse_constant : Nat → PM Stmt
  | 0 => pOut
  | f+1 => do
    let _ ← expect .Const
    let l ← pCurrent
    let nameTok ← expect .Identifier
    let _ ← expect .Colon
    let t ← parse_type f
    let _ ← expect .Equal
    let v ← parse_expression f
    let _ ← expect .Newline
    pure (.Constant nameTok.value t v l.location)

/-- `Parser::parse_return`. -/
def parse_return : Nat → PM Stmt
  | 0 => pOut
  | f+1 => do
    let _ ← expect .Return
    let v ← parse_expression f
    let _ ← expect .Newline
    pure (.Return v (exprLocation v))

/-- `Parser::parse_import`. -/
def parse_import : Nat → PM Stmt
  | 0 => pOut
  | f+1 => do
    let l ← pCurrent
    let _ ← expect .Import
    let p ← expect .StringLit
    let _ ← expect .Newline
    pure (.Import p.value l.location)

/-- `Parser::parse_while`. -/
def parse_while : Nat → PM Stmt
  | 0 => pOut
  | f+1 => do
    let l ← pCurrent
    let _ ← expect .While
    let cond ← parse_expression f
    let _ ← expect .Newline
    let body ← parse_while_body f []
    let _ ← expect .End
    pure (.While cond body l.location)

/-- The body loop of `parse_while`. -/
def parse_while_body : Nat → List Stmt → PM (List Stmt)
  | 0, _ => pOut
  | f+1, acc => do
    let c ← pCurrent
    if c.kind = .End then pure acc
    else if c.kind = .Newline then do
      let _ ← expect .Newline
      parse_while_body f acc
    else do
      let s ← parse_statement f
      parse_while_body f (acc ++ [s])

/-- `Parser::parse_if`, with the `else if` recursion and the early return
whose span comes from the nested `if`. -/
def parse_if : Nat → PM Stmt
  | 0 => pOut
  | f+1 => do
    let l ← pCurrent
    let _ ← expect .If
    let cond ← parse_expression f
    let _ ← expect .Newline
    let body ← parse_if_body f []
    let c ← pCurrent
    if c.kind = .Else then do
      let _ ← expect .Else
      let c2 ← pCurrent
      if c2.kind = .If then do
        let s ← parse_if f
        pure (.If cond body [s] (stmtLocation s))
      else do
        let _ ← expect .Newline
        let eb ← parse_else_body f []
        let _ ← expect .End
        pure (.If cond body eb l.location)
    else do
      let _ ← expect .End
      pure (.If cond body [] l.location)

/-- The then-branch loop of `parse_if` (stops at `end` or `else`). -/
def parse_if_body : Nat → List Stmt → PM (List Stmt)
  | 0, _ => pOut
  | f+1, acc => do
    let c ← pCurrent
    if c.kind = .End ∨ c.kind = .Else then pure acc
    else if c.kind = .Newline then do
      let _ ← expect .Newline
      parse_if_body f acc
    else do
      let s ← parse_statement f
      parse_if_body f (acc ++ [s])

/-- The else-branch loop of `parse_if`. -/
def parse_else_body : Nat → List Stmt → PM (List Stmt)
  | 0, _ => pOut
  | f+1, acc => do
    let c ← pCurrent
    if c.kind = .End then pure acc
    else if c.kind = .Newline then do
      let _ ← expect .Newline
      parse_else_body f acc
    else do
      let s ← parse_statement f
      parse_else_body f (acc ++ [s])

/-- `Parser::parse_expression`. -/
def parse_expression : Nat → PM Expr
  | 0 => pOut
  | f+1 => parse_ternary f

/-- `Parser::parse_ternary` (postfix `expr if cond else expr`). -/
def parse_ternary : Nat → PM Expr
  | 0 => pOut
  | f+1 => do
    let e ← parse_assignment f
    let c ← pCurrent
    if c.kind = .If then do
      let _ ← expect .If
      let cond ← parse_expression f
      let _ ← expect .Else
      let els ← parse_expression f
      pure (.Ternary cond e els c.location)
    else pure e

/-- `Parser::parse_assignment` (right-associative single `=`). -/
def parse_assignment : Nat → PM Expr
  | 0 => pOut
  | f+1 => do
    let e ← parse_comparison f
    let c ← pCurrent
    if c.kind = .Equal then do
      let _ ← expect .Equal
      let r ← parse_expression f
      pure (.Assignment e r c.location)
    else pure e

/-- `Parser::parse_comparison`. -/
def parse_comparison : Nat → PM Expr
  | 0 => pOut
  | f+1 => do
    let e ← parse_additive f
    parse_comparison_ops f e

/-- The operator loop of `parse_comparison`. -/
def parse_comparison_ops : Nat → Expr → PM Expr
  | 0, _ => pOut
  | f+1, e => do
    let c ← pCurrent
    if c.kind = .EqualEqual ∨ c.kind = .BangEqual ∨ c.kind = .Less ∨
        c.kind = .LessEqual ∨ c.kind = .Greater ∨ c.kind = .GreaterEqual then do
      let _ ← expect c.kind
      let r ← parse_additive f
      parse_comparison_ops f (.Binary c.kind e r c.location)
    else pure e

/-- `Parser::parse_additive`. -/
def parse_additive : Nat → PM Expr
  | 0 => pOut
  | f+1 => do
    let e ← parse_multiplicative f
    parse_additive_ops f e

/-- The operator loop of `parse_additive`. -/
def parse_additive_ops : Nat → Expr → PM Expr
  | 0, _ => pOut
  | f+1, e => do
    let c ← pCurrent
    if c.kind = .Plus ∨ c.kind = .Minus then do
      let _ ← expect c.kind
      let r ← parse_multiplicative f
      parse_additive_ops f (.Binary c.kind e r c.location)
    else pure e

/-- `Parser::parse_multiplicative` — note the source's first operand comes
from `parse_grouping`, while the right operands come from `parse_unary`. -/
def parse_multiplicative : Nat → PM Expr
  | 0 => pOut
  | f+1 => do
    let e ← parse_grouping f
    parse_multiplicative_ops f e

/-- The operator loop of `parse_multiplicative`. -/
def parse_multiplicative_ops : Nat → Expr → PM Expr
  | 0, _ => pOut
  | f+1, e => do
    let c ← pCurrent
    if c.kind = .Star ∨ c.kind = .Slash ∨ c.kind = .Percent then do
      let _ ← expect c.kind
      let r ← parse_unary f
      parse_multiplicative_ops f (.Binary c.kind e r c.location)
    else pure e

/-- `Parser::parse_grouping`. -/
def parse_grouping : Nat → PM Expr
  | 0 => pOut
  | f+1 => do
    let c ← pCurrent
    if c.kind = .OpenParen then do
      let _ ← expect .OpenParen
      let e ← parse_expression f
      let _ ← expect .CloseParen
      pure (.Grouping e c.location)
    else parse_unary f

/-- `Parser::parse_unary`. -/
def parse_unary : Nat → PM Expr
  | 0 => pOut
  | f+1 => do
    let c ← pCurrent
    if c.kind = .Minus then do
      let _ ← expect .Minus
      let e ← parse_unary f
      pure (.Unary .Minus e c.location)
    else if c.kind = .Bang then do
      let _ ← expect .Bang
      let e ← parse_unary f
      pure (.Unary .Bang e c.location)
    else if c.kind = .Ampersand then do
      let _ ← expect .Ampersand
      let e ← parse_unary f
      pure (.AddressOf e c.location)
    else if c.kind = .Star then do
      let _ ← expect .Star
      let e ← parse_unary f
      pure (.Dereference e c.location)
    else parse_index f

/-- `Parser::parse_index`. -/
def parse_index : Nat → PM Expr
  | 0 => pOut
  | f+1 => do
    let e ← parse_member f
    parse_index_ops f e

/-- The `[expr]` postfix loop of `parse_index`. -/
def parse_index_ops : Nat → Expr → PM Expr
  | 0, _ => pOut
  | f+1, e => do
    let c ← pCurrent
    if c.kind = .OpenBracket then do
      let _ ← expect .OpenBracket
      let i ← parse_expression f
      let _ ← expect .CloseBracket
      parse_index_ops f (.Index e i c.location)
    else pure e

/-- `Parser::parse_member`. -/
def parse_member : Nat → PM Expr
  | 0 => pOut
  | f+1 => do
    let e ← parse_cast f
    parse_member_ops f e

/-- The `.`-postfix loop of `parse_member` (the member is a full
expression). -/
def parse_member_ops : Nat → Expr → PM Expr
  | 0, _ => pOut
  | f+1, e => do
    let c ← pCurrent
    if c.kind = .Dot then do
      let _ ← expect .Dot
      let m ← parse_expression f
      parse_member_ops f (.Member e m c.location)
    else pure e

/-- `Parser::parse_cast`. -/
def parse_cast : Nat → PM Expr
  | 0 => pOut
  | f+1 => do
    let e ← parse_range f
    parse_cast_ops f e

/-- The `as type` postfix loop of `parse_cast`. -/
def parse_cast_ops : Nat → Expr → PM Expr
  | 0, _ => pOut
  | f+1, e => do
    let c ← pCurrent
    if c.kind = .As then do
      let _ ← expect .As
      let t ← parse_type f
      parse_cast_ops f (.Cast e t c.location)
    else pure e

/-- `Parser::parse_range`. -/
def parse_range : Nat → PM Expr
  | 0 => pOut
  | f+1 => do
    let e ← parse_call f
    parse_range_ops f e

/-- The `..` postfix loop of `parse_range`. -/
def parse_range_ops : Nat → Expr → PM Expr
  | 0, _ => pOut
  | f+1, e => do
    let c ← pCurrent
    if c.kind = .Range then do
      let _ ← expect .Range
      let hi ← parse_expression f
      parse_range_ops f (.Range e hi c.location)
    else pure e

/-- `Parser::parse_call`. -/
def parse_call : Nat → PM Expr
  | 0 => pOut
  | f+1 => do
    let e ← parse_primary f
    parse_call_suffixes f e

/-- The call-suffix loop of `parse_call`.  An iteration whose lookahead
(`tokens[current + 2]`, a panicking direct index) recognizes a generic call
parses it — and then *falls through* into the ordinary-call parse of the
same iteration, exactly as the source does. -/
def parse_call_suffixes : Nat → Expr → PM Expr
  | 0, _ => pOut
  | f+1, e => do
    let c ← pCurrent
    if c.kind = .OpenParen ∨ c.kind = .OpenBracket then do
      let e2 ←
        if c.kind = .OpenBracket then do
          let st ← pGet
          let t2 ← pTokenAt (st.current + 2)
          if t2.kind = .CloseBracket ∨ t2.kind = .Comma then do
            let _ ← expect .OpenBracket
            let tys ← parse_generic_tys f []
            let _ ← expect .CloseBracket
            let _ ← expect .OpenParen
            let args ← parse_generic_args f []
            let _ ← expect .CloseParen
            let name ← callee_name e
            pure (Expr.GenericCall name tys args c.location)
          else pure e
        else pure e
      let c2 ← pCurrent
      let _ ← expect .OpenParen
      let args ← parse_call_args f []
      let _ ← expect .CloseParen
      let name ← callee_name e2
      parse_call_suffixes f (.Call name args c2.location)
    else pure e

/-- The type-argument loop of a generic call suffix. -/
def parse_generic_tys : Nat → List Ty → PM (List Ty)
  | 0, _ => pOut
  | f+1, acc => do
    let c ← pCurrent
    if c.kind = .CloseBracket then pure acc
    else do
      let t ← parse_type f
      let c2 ← pCurrent
      if c2.kind = .Comma then do
        let _ ← expect .Comma
        parse_generic_tys f (acc ++ [t])
      else parse_generic_tys f (acc ++ [t])

/-- The argument loop of a generic call suffix (no named-argument check). -/
def parse_generic_args : Nat → List Expr → PM (List Expr)
  | 0, _ => pOut
  | f+1, acc => do
    let c ← pCurrent
    if c.kind = .CloseParen then pure acc
    else do
      let e ← parse_expression f
      let c2 ← pCurrent
      if c2.kind = .Comma then do
        let _ ← expect .Comma
        parse_generic_args f (acc ++ [e])
      else parse_generic_args f (acc ++ [e])

/-- The argument loop of an ordinary call suffix; `identifier :` introduces
a named argument (the lookahead `tokens[current + 1]` is a panicking direct
index, guarded by the short-circuiting identifier test). -/
def parse_call_args : Nat → List Expr → PM (List Expr)
  | 0, _ => pOut
  | f+1, acc => do
    let c ← pCurrent
    if c.kind = .CloseParen then pure acc
    else if c.kind = .Identifier then do
      let st ← pGet
      let t1 ← pTokenAt (st.current + 1)
      if t1.kind = .Colon then do
        let n ← expect .Identifier
        let _ ← expect .Colon
        let v ← parse_expression f
        let c2 ← pCurrent
        if c2.kind = .Comma then do
          let _ ← expect .Comma
          parse_call_args f (acc ++ [.NamedArgument n.value v c.location])
        else parse_call_args f (acc ++ [.NamedArgument n.value v c.location])
      else do
        let e ← parse_expression f
        let c2 ← pCurrent
        if c2.kind = .Comma then do
          let _ ← expect .Comma
          parse_call_args f (acc ++ [e])
        else parse_call_args f (acc ++ [e])
    else do
      let e ← parse_expression f
      let c2 ← pCurrent
      if c2.kind = .Comma then do
        let _ ← expect .Comma
        parse_call_args f (acc ++ [e])
      else parse_call_args f (acc ++ [e])

/-- `Parser::parse_primary`.  The number arm `unwrap`s the `i64` parse of
the token text (a panic on out-of-range text); the default arm returns an
`Error` expression *without advancing*. -/
def parse_primary : Nat → PM Expr
  | 0 => pOut
  | f+1 => do
    let c ← pCurrent
    match c.kind with
    | .NumberLit => do
      let tok ← expect .NumberLit
      match parseI64 tok.value with
      | some n => pure (.Number n c.location)
      | none => pCrash
    | .StringLit => do
      let tok ← expect .StringLit
      pure (.String tok.value c.location)
    | .CharLit => do
      let tok ← expect .CharLit
      pure (.Char tok.value c.location)
    | .True => do
      let _ ← expect .True
      pure (.Boolean true c.location)
    | .False => do
      let _ ← expect .False
      pure (.Boolean false c.location)
    | .Identifier => do
      let tok ← expect .Identifier
      pure (.Identifier tok.value c.location)
    | .SizeOf => do
      let _ ← expect .SizeOf
      let t ← parse_type f
      pure (.SizeOf t c.location)
    | .OpenBracket => do
      let _ ← expect .OpenBracket
      let vals ← parse_array_items f []
      let _ ← expect .CloseBracket
      pure (.Array vals c.location)
    | .New => do
      let _ ← expect .New
      let idTok ← expect .Identifier
      let _ ← expect .OpenParen
      let args ← parse_new_args f []
      let _ ← expect .CloseParen
      pure (.New idTok.value args c.location)
    | .Null => do
      let _ ← expect .Null
      pure .Null
    | k => pure (.Error (.SyntaxError ("expected Expression, but got " ++ kindRepr k)
        c.location))

/-- The element loop of an array literal. -/
def parse_array_items : Nat → List Expr → PM (List Expr)
  | 0, _ => pOut
  | f+1, acc => do
    let c ← pCurrent
    if c.kind = .CloseBracket then pure acc
    else do
      let e ← parse_expression f
      let c2 ← pCurrent
      if c2.kind = .Comma then do
        let _ ← expect .Comma
        parse_array_items f (acc ++ [e])
      else parse_array_items f (acc ++ [e])

/-- The argument loop of `new Name(args)`. -/
def parse_new_args : Nat → List Expr → PM (List Expr)
  | 0, _ => pOut
  | f+1, acc => do
    let c ← pCurrent
    if c.kind = .CloseParen then pure acc
    else do
      let e ← parse_expression f
      let c2 ← pCurrent
      if c2.kind = .Comma then do
        let _ ← expect .Comma
        parse_new_args f (acc ++ [e])
      else parse_new_args f (acc ++ [e])

/-- `Parser::parse_type`: base type, then at most one trailing `*` or
`[size]` / `[]` modifier. -/
def parse_type : Nat → PM Ty
  | 0 => pOut
  | f+1 => do
    let c ← pCurrent
    let t ←
      match c.kind with
      | .Int => do
        let _ ← expect .Int
        pure (Ty.Int c.location)
      | .Usize => do
        let _ ← expect .Usize
        pure (Ty.Usize c.location)
      | .String => do
        let _ ← expect .String
        pure (Ty.String c.location)
      | .CString => do
        let _ ← expect .CString
        pure (Ty.CString c.location)
      | .Char => do
        let _ ← expect .Char
        pure (Ty.Char c.location)
      | .Bool => do
        let _ ← expect .Bool
        pure (Ty.Bool c.location)
      | .Void => do
        let _ ← expect .Void
        pure (Ty.Void c.location)
      | .Identifier => do
        let n ← expect .Identifier
        pure (Ty.Unknown n.value c.location)
      | .Func => do
        let _ ← expect .Func
        let _ ← expect .OpenParen
        let args ← parse_func_ty_args f []
        let _ ← expect .CloseParen
        let c2 ← pCurrent
        let ret ←
          if c2.kind = .Colon then do
            let _ ← expect .Colon
            parse_type f
          else pure (Ty.Void c2.location)
        pure (Ty.Function args ret c2.location)
      | .Volatile => do
        let _ ← expect .Volatile
        let t ← parse_type f
        pure (Ty.Volatile t c.location)
      | .Const => do
        let _ ← expect .Const
        let t ← parse_type f
        pure (Ty.Const t c.location)
      | .Restrict => do
        let _ ← expect .Restrict
        let t ← parse_type f
        pure (Ty.Restrict t c.location)
      | k => pure (Ty.Error
          (.SyntaxError ("expected Type, but got " ++ kindRepr k) c.location)
          c.location)
    let c4 ← pCurrent
    if c4.kind = .Star then do
      let _ ← expect .Star
      pure (.Pointer t c4.location)
    else if c4.kind = .OpenBracket then do
      let _ ← expect .OpenBracket
      let c5 ← pCurrent
      if c5.kind = .CloseBracket then do
        let _ ← expect .CloseBracket
        pure (.DynamicArray t c4.location)
      else do
        let size ← parse_expression f
        let _ ← expect .CloseBracket
        pure (.Array t size c4.location)
    else pure t

/-- The argument-type loop of a `func(...)` type. -/
def parse_func_ty_args : Nat → List Ty → PM (List Ty)
  | 0, _ => pOut
  | f+1, acc => do
    let c ← pCurrent
    if c.kind = .CloseParen then pure acc
    else do
      let t ← parse_type f
      let c2 ← pCurrent
      if c2.kind = .Comma then do
        let _ ← expect .Comma
        parse_func_ty_args f (acc ++ [t])
      else parse_func_ty_args f (acc ++ [t])

end

/-- `Parser::parse` run from a fresh parser state on a token list. -/
def parseRun (fuel : Nat) (tokens : List Token) : Res (List Stmt × PSt) :=
  match parse_loop fuel ⟨tokens, [], 0, []⟩ with
  | .ok (_, st) => .ok (st.statements, st)
  | .crash => .crash
  | .fuelOut => .fuelOut

/-! ## The code generator -/

/-- `Type::location`. -/
def tyLocation : Ty → Loc
  | .Int l => l
  | .Usize l => l
  | .String l => l
  | .CString l => l
  | .Char l => l
  | .Bool l => l
  | .Void l => l
  | .Struct _ l => l
  | .Enum _ l => l
  | .Function _ _ l => l
  | .Pointer _ l => l
  | .Array _ _ l => l
  | .DynamicArray _ l => l
  | .Volatile _ l => l
  | .Const _ l => l
  | .Restrict _ l => l
  | .GenericType _ l => l
  | .Unknown _ l => l
  | .Error _ l => l

/-- Association-list lookup, the embedding of `HashMap::get`. -/
def alLookup (m : List (String × α)) (k : String) : Option α :=
  (m.find? (fun p => p.1 = k)).map (·.2)

/-- Association-list insert, the embedding of `HashMap::insert` (the new
binding shadows any old one). -/
def alInsert (m : List (String × α)) (k : String) (v : α) : List (String × α) :=
  (k, v) :: m

/-- Association-list removal, the embedding of `HashMap::remove`. -/
def alRemove (m : List (String × α)) (k : String) : List (String × α) :=
  m.filter (fun p => ¬ p.1 = k)

/-- `String::pop`: drop the last character. -/
def strPop (s : String) : String := String.mk s.data.dropLast

/-- Codegen state: the symbol tables, error list and deferred-`#undef`
list of the `Codegen` struct (its `statements` field is only ever read by
`codegen`, which receives the list directly here). -/
structure CG where
  structs : List String
  struct_fields : List (String × List (String × Ty))
  struct_functions : List (String × List String)
  enums : List String
  type_aliases : List String
  variable_types : List (String × Ty)
  parameter_types : List (String × Ty)
  annots : List (String × List (String × Ty))
  errors : List Err
  generic_types : List (String × List String)
  generic_type_names : List String
  to_undef : List String
  deriving Repr

/-- The empty initial codegen state (`Codegen::new`). -/
def initCG : CG := ⟨[], [], [], [], [], [], [], [], [], [], [], []⟩

/-- The code generator's effect monad. -/
def CM (α : Type) : Type := CG → Res (α × CG)

/-- Monadic return for `CM`. -/
def CM.pure (a : α) : CM α := fun st => .ok (a, st)

/-- Monadic bind for `CM`. -/
def CM.bind (x : CM α) (g : α → CM β) : CM β := fun st =>
  match x st with
  | .ok (a, st') => g a st'
  | .crash => .crash
  | .fuelOut => .fuelOut

instance : Monad CM where
  pure := CM.pure
  bind := CM.bind

/-- A Rust panic inside the code generator. -/
def cgCrash : CM α := fun _ => .crash

/-- Fuel exhaustion marker. -/
def cgOut : CM α := fun _ => .fuelOut

/-- Read the whole codegen state. -/
def cgGet : CM CG := fun st => .ok (st, st)

/-- Replace the whole codegen state. -/
def cgSet (st : CG) : CM Unit := fun _ => .ok ((), st)

/-- Update the codegen state. -/
def cgModify (g : CG → CG) : CM Unit := fun st => .ok ((), g st)

/-- Record a codegen error. -/
def cgErr (e : Err) : CM Unit := fun st => .ok ((), { st with errors := st.errors ++ [e] })

/-- `Codegen::codegen_type`: C rendering of a type node.  `Unknown(name)`
resolves against structs, then enums, then type aliases, then generic
parameter names; an unresolved name records a `TypeError` and renders as
`"ERROR"`. -/
def codegen_type : Nat → Ty → CM String
  | 0, _ => cgOut
  | f+1, t =>
    match t with
    | .Int _ => pure "int"
    | .Usize _ => pure "size_t"
    | .String _ => pure "const char*"
    | .CString _ => pure "char*"
    | .Char _ => pure "char"
    | .Bool _ => pure "bool"
    | .Void _ => pure "void"
    | .Struct n _ => pure ("struct " ++ n)
    | .Enum n _ => pure ("enum " ++ n)
    | .Function _ _ l => do
      cgErr (.TypeError "Function type is not allowed here" l)
      pure ""
    | .Pointer t' _ => do
      let s ← codegen_type f t'
      pure (s ++ "*")
    | .Array t' _ _ => codegen_type f t'
    | .DynamicArray t' _ => do
      let s ← codegen_type f t'
      pure (s ++ "*")
    | .Restrict t' _ => do
      let s ← codegen_type f t'
      pure (s ++ " restrict")
    | .Const t' _ => do
      let s ← codegen_type f t'
      pure ("const " ++ s)
    | .Volatile t' _ => do
      let s ← codegen_type f t'
      pure ("volatile " ++ s)
    | .GenericType n _ => pure n
    | .Unknown n loc => do
      let st ← cgGet
      if n ∈ st.structs then pure ("struct " ++ n)
      else if n ∈ st.enums then pure ("enum " ++ n)
      else if n ∈ st.type_aliases then pure n
      else if n ∈ st.generic_type_names then pure n
      else do
        cgErr (.TypeError ("Unknown type " ++ n) loc)
        pure "ERROR"
    | .Error e _ => do
      cgErr e
      pure "ERROR"

/-- The `for arg_type in args { code += "{type}, " }` pattern over a type
list. -/
def codegen_tys_comma : Nat → List Ty → String → CM String
  | 0, _, _ => cgOut
  | _+1, [], acc => pure acc
  | f+1, t :: rest, acc => do
    let s ← codegen_type f t
    codegen_tys_comma f rest (acc ++ s ++ ", ")

/-- The operator table of `codegen_expression`'s `Binary` arm. -/
def binOpStr (op : TokenKind) : Option String :=
  if op = .Plus then some "+"
  else if op = .Minus then some "-"
  else if op = .Star then some "*"
  else if op = .Slash then some "/"
  else if op = .Percent then some "%"
  else if op = .EqualEqual then some "=="
  else if op = .BangEqual then some "!="
  else if op = .Less then some "<"
  else if op = .LessEqual then some "<="
  else if op = .Greater then some ">"
  else if op = .GreaterEqual then some ">="
  else none

mutual

/-- `Codegen::codegen_expression`. -/
def codegen_expression : Nat → Expr → CM String
  | 0, _ => cgOut
  | f+1, e =>
    match e with
    | .Number n _ => pure (toString n)
    | .String v _ => pure ((Char.toString quoteChar) ++ v ++ (Char.toString quoteChar))
    | .Char v _ => pure ((Char.toString apostChar) ++ v ++ (Char.toString apostChar))
    | .Boolean b _ => pure (if b then "true" else "false")
    | .Identifier n _ => pure n
    | .Null => pure "NULL"
    | .Call name args _ => do
      let st ← cgGet
      if name ∈ st.structs then do
        let argsStr ← codegen_args_comma f args ""
        let code := "&(struct " ++ name ++ ")\x7b" ++ argsStr
        let code := if args.length > 0 then strPop (strPop code) else code
        pure (code ++ "\x7d")
      else do
        let argsStr ← codegen_args_comma f args ""
        let code := name ++ "(" ++ argsStr
        let code := if args.length > 0 then strPop (strPop code) else code
        pure (code ++ ")")
    | .GenericCall name tys args _ => do
      let st ← cgGet
      match alLookup st.generic_types name with
      | none => cgCrash
      | some params => do
        let defs ← gcall_defines f params tys 0 ""
        let argsStr ← codegen_args_comma f args ""
        let code := defs ++ name ++ "(" ++ argsStr
        let code := if args.length > 0 then strPop (strPop code) else code
        let code := code ++ ")"
        cgModify (fun st2 => { st2 with to_undef := st2.to_undef ++ params })
        pure code
    | .Member obj mem _ =>
      match obj with
      | .Identifier name _ => do
        let st ← cgGet
        if (alLookup st.variable_types name).isSome then
          match mem with
          | .Call callee args _ => do
            let argsStr ← codegen_args_comma f args ""
            let code := name ++ "->" ++ callee ++ "(" ++ name ++ ", " ++ argsStr
            let code := strPop (strPop code)
            pure (code ++ ")")
          | _ =>
            match alLookup st.variable_types name with
            | some (Ty.Pointer _ _) => do
              let objS ← codegen_expression f obj
              let memS ← codegen_expression f mem
              pure (objS ++ "->" ++ memS)
            | some _ => do
              cgErr (.RuntimeError "Invalid member access" (exprLocation obj))
              pure ""
            | none => cgCrash
        else if (alLookup st.parameter_types name).isSome then
          match alLookup st.parameter_types name with
          | some (Ty.Pointer _ _) => do
            let objS ← codegen_expression f obj
            let memS ← codegen_expression f mem
            pure (objS ++ "->" ++ memS)
          | some _ => do
            cgErr (.RuntimeError "Invalid member access" (exprLocation obj))
            pure ""
          | none => cgCrash
        else if name ∈ st.structs then
          match mem with
          | .Identifier memberId _ =>
            match alLookup st.struct_fields name with
            | none => cgCrash
            | some flds =>
              match alLookup flds memberId with
              | some (Ty.Function _ _ _) => pure ("__" ++ name ++ "_" ++ memberId)
              | some _ => pure (name ++ "." ++ memberId)
              | none => do
                cgErr (.RuntimeError
                  ("Unknown field " ++ memberId ++ " in struct " ++ name)
                  (exprLocation obj))
                pure ""
          | _ => do
            let memS ← codegen_expression f mem
            pure (name ++ "." ++ memS)
        else if name ∈ st.enums then
          match mem with
          | .Call callee args _ => do
            let argsStr ← codegen_args_comma f args ""
            let code := "__" ++ name ++ "_values[" ++ callee ++ "](" ++ argsStr
            let code := if args.length > 0 then strPop (strPop code) else code
            pure (code ++ ")")
          | .Identifier m _ => pure ("__" ++ name ++ "_values[" ++ m ++ "]")
          | _ => do
            cgErr (.RuntimeError "Invalid enum member access" (exprLocation obj))
            pure ""
        else do
          let memS ← codegen_expression f mem
          pure (name ++ "." ++ memS)
      | _ => do
        let objS ← codegen_expression f obj
        let memS ← codegen_expression f mem
        pure (objS ++ "." ++ memS)
    | .Grouping e' _ => do
      let s ← codegen_expression f e'
      pure ("(" ++ s ++ ")")
    | .NamedArgument n e' _ => do
      let s ← codegen_expression f e'
      pure ("." ++ n ++ " = " ++ s)
    | .Cast e' t _ => do
      let ts ← codegen_type f t
      let es ← codegen_expression f e'
      pure ("(" ++ ts ++ ")" ++ es)
    | .SizeOf t _ => do
      let ts ← codegen_type f t
      pure ("sizeof(" ++ ts ++ ")")
    | .Index e' i _ => do
      let es ← codegen_expression f e'
      let is ← codegen_expression f i
      pure (es ++ "[" ++ is ++ "]")
    | .Array elems _ => do
      let s ← codegen_args_comma f elems ""
      let code := "\x7b" ++ s
      let code := if elems.length > 0 then strPop (strPop code) else code
      pure (code ++ "\x7d")
    | .New id args _ => do
      let argsStr ← codegen_args_comma f args ""
      let code := "__" ++ id ++ "_constructor(" ++ argsStr
      let code := if args.length > 0 then strPop (strPop code) else code
      pure (code ++ ")")
    | .Unary op operand _ =>
      match op with
      | .Minus => do
        let s ← codegen_expression f operand
        pure ("-" ++ s)
      | .Bang => do
        let s ← codegen_expression f operand
        pure ("!" ++ s)
      | _ => do
        cgErr (.RuntimeError "Invalid unary operator" (exprLocation operand))
        pure ""
    | .Binary op l r _ =>
      match binOpStr op with
      | some opS => do
        let lS ← codegen_expression f l
        let rS ← codegen_expression f r
        pure (lS ++ " " ++ opS ++ " " ++ rS)
      | none => do
        cgErr (.RuntimeError "Invalid binary operator" (exprLocation l))
        pure ""
    | .Ternary c tBr eBr _ => do
      let cS ← codegen_expression f c
      let tS ← codegen_expression f tBr
      let eS ← codegen_expression f eBr
      pure (cS ++ " ? " ++ tS ++ " : " ++ eS)
    | .Assignment l r _ => do
      let lS ← codegen_expression f l
      let rS ← codegen_expression f r
      pure (lS ++ " = " ++ rS)
    | .AddressOf e' _ => do
      let s ← codegen_expression f e'
      pure ("&" ++ s)
    | .Dereference e' _ => do
      let s ← codegen_expression f e'
      pure ("*" ++ s)
    | .Range lo hi _ => do
      let loS ← codegen_expression f lo
      let hiS ← codegen_expression f hi
      pure (loS ++ ".." ++ hiS)
    | .Empty => pure ""
    | .Error err => do
      cgErr err
      pure ""

/-- The `for arg in args { code += "{arg}, " }` pattern over an expression
list. -/
def codegen_args_comma : Nat → List Expr → String → CM String
  | 0, _, _ => cgOut
  | _+1, [], acc => pure acc
  | f+1, e :: rest, acc => do
    let s ← codegen_expression f e
    codegen_args_comma f rest (acc ++ s ++ ", ")

/-- The `#define T actual_c_type` loop of a generic call site: one line per
registered type parameter, rendering `types[i]` (a panicking direct index)
with a *clone* of the generator, so type errors found here are discarded. -/
def gcall_defines : Nat → List String → List Ty → Nat → String → CM String
  | 0, _, _, _, _ => cgOut
  | _+1, [], _, _, acc => pure acc
  | f+1, p :: ps, tys, i, acc =>
    match tys.get? i with
    | none => cgCrash
    | some t => fun st =>
      match codegen_type f t st with
      | .ok (s, _) =>
        gcall_defines f ps tys (i+1) (acc ++ "#define " ++ p ++ " " ++ s ++ "\n") st
      | .crash => .crash
      | .fuelOut => .fuelOut

end

/-- `Codegen::codegen_struct`'s constructor-argument loop:
`"{type} __{i}, "` per argument of the `constructor` field's function
type. -/
def ctor_args : Nat → List Ty → Nat → String → CM String
  | 0, _, _, _ => cgOut
  | _+1, [], _, acc => pure acc
  | f+1, t :: rest, i, acc => do
    let s ← codegen_type f t
    ctor_args f rest (i+1) (acc ++ s ++ " __" ++ toString i ++ ", ")

/-- The constructor body's field-assignment loop: `fields.get(i).unwrap()`
per constructor argument — `none` models the panic when the constructor's
function type has more arguments than the struct has fields. -/
def ctor_field_assigns : List Ty → List (String × Ty) → Nat → String → Option String
  | [], _, _, acc => some acc
  | _ :: rest, flds, i, acc =>
    match flds.get? i with
    | none => none
    | some fld =>
      ctor_field_assigns rest flds (i+1)
        (acc ++ "self->" ++ fld.1 ++ " = __" ++ toString i ++ ";\n")

/-- The constructor body's function-field assignment loop. -/
def fn_field_assigns (name : String) : List (String × Ty) → String → String
  | [], acc => acc
  | (n2, Ty.Function _ _ _) :: rest, acc =>
    fn_field_assigns name rest (acc ++ "self->" ++ n2 ++ " = __" ++ name ++ "_" ++ n2 ++ ";\n")
  | _ :: rest, acc => fn_field_assigns name rest acc

/-- The field loop of `codegen_struct`: emits each field into `code`
(function-pointer spelling for function-typed fields), and also builds the
`__N_constructor` helper and per-method forward declarations, which the
source computes — with all their `codegen_type` state effects and the
`fields.get(i).unwrap()` panic — but never appends to the output. -/
def codegen_struct_fields (f : Nat) (name : String) (allFields : List (String × Ty)) :
    List (String × Ty) → String → String → String → CM (String × String × String)
  | [], code, ctor, fwd => pure (code, ctor, fwd)
  | (fname, ftype) :: rest, code, ctor, fwd =>
    match ftype with
    | Ty.Function args ret _ => do
      let retS ← codegen_type f ret
      let argsS ← codegen_tys_comma f args ""
      let code := code ++ retS ++ " (*" ++ fname ++ ")(" ++ argsS
      let code := if args.length > 0 then strPop (strPop code) else code
      let code := code ++ ");\n"
      if fname = "constructor" then do
        let retS2 ← codegen_type f ret
        let ctor := ctor ++ "static " ++ retS2 ++ " __" ++ name ++ "_constructor("
        let cArgs ← ctor_args f args 0 ""
        let ctor := ctor ++ cArgs
        let ctor := if args.length > 0 then strPop (strPop ctor) else ctor
        let ctor := ctor ++ ") \x7b\n"
        let r3 ← codegen_type f ret
        let r4 ← codegen_type f ret
        let r5 ← codegen_type f ret
        let ctor := ctor ++ r3 ++ " self = (" ++ r4 ++ ")(malloc(sizeof(" ++ r5 ++ ")));\n"
        match ctor_field_assigns args allFields 0 "" with
        | none => cgCrash
        | some assigns =>
          let ctor := ctor ++ assigns
          let ctor := ctor ++ fn_field_assigns name allFields ""
          let ctor := ctor ++ "return self;\n" ++ "\x7d\n"
          codegen_struct_fields f name allFields rest code ctor fwd
      else do
        let retS2 ← codegen_type f ret
        let fwd := fwd ++ retS2 ++ " __" ++ name ++ "_" ++ fname ++ "("
        let fArgs ← codegen_tys_comma f args ""
        let fwd := fwd ++ fArgs
        let fwd := if args.length > 0 then strPop (strPop fwd) else fwd
        let fwd := fwd ++ ");\n"
        codegen_struct_fields f name allFields rest code ctor fwd
    | _ => do
      let tS ← codegen_type f ftype
      codegen_struct_fields f name allFields rest
        (code ++ tS ++ " " ++ fname ++ ";\n") ctor fwd

/-- `Codegen::codegen_struct`: register the struct (name, fields, empty
method list), then emit a forward declaration for an empty field list or the
full `struct N { … };` otherwise; the synthesized constructor and forward
declarations are dropped. -/
def codegen_struct (f : Nat) (name : String) (fields : List (String × Ty)) :
    CM String := do
  cgModify (fun st => { st with
    structs := st.structs ++ [name],
    struct_fields := alInsert st.struct_fields name fields,
    struct_functions := alInsert st.struct_functions name [] })
  if fields.length = 0 then
    pure ("struct " ++ name ++ ";\n")
  else do
    let r ← codegen_struct_fields f name fields fields
      ("struct " ++ name ++ " \x7b\n") "" ""
    pure (r.1 ++ "\x7d;\n")

/-- The variant-name loop of `codegen_enum`. -/
def enum_variant_names : List (String × Expr × Loc) → String → String
  | [], acc => acc
  | (vn, _, _) :: rest, acc => enum_variant_names rest (acc ++ vn ++ ",\n")

/-- The value-table loop of `codegen_enum`: `[Variant] = expr,` lines. -/
def codegen_enum_values : Nat → List (String × Expr × Loc) → String → CM String
  | 0, _, _ => cgOut
  | _+1, [], acc => pure acc
  | f+1, (vn, vv, _) :: rest, acc => do
    let vS ← codegen_expression f vv
    codegen_enum_values f rest (acc ++ "[" ++ vn ++ "] = " ++ vS ++ ",\n")

/-- `Codegen::codegen_enum`: the C `enum`, then the parallel
`__N_values[]` table (function-pointer element type when the value type is
a function type); the enum name is registered only after emission. -/
def codegen_enum (f : Nat) (name : String) (enum_type : Ty)
    (variants : List (String × Expr × Loc)) : CM String := do
  let code := "enum " ++ name ++ " \x7b\n" ++ enum_variant_names variants "" ++ "\x7d;\n"
  let header ←
    match enum_type with
    | Ty.Function args ret _ => do
      let retS ← codegen_type f ret
      let h := "static " ++ retS ++ " (*const __" ++ name ++ "_values[])("
      let argsS ← codegen_tys_comma f args ""
      let h := h ++ argsS
      let h := if args.length > 0 then strPop (strPop h) else h
      pure (h ++ ") = \x7b\n")
    | _ => do
      let tS ← codegen_type f enum_type
      pure ("static " ++ tS ++ " const __" ++ name ++ "_values[] = \x7b\n")
  let vals ← codegen_enum_values f variants ""
  cgModify (fun st => { st with enums := st.enums ++ [name] })
  pure (code ++ header ++ vals ++ "\x7d;\n")

/-- The union-member loop of a multi-type alias. -/
def alias_union : Nat → List Ty → Nat → String → CM String
  | 0, _, _, _ => cgOut
  | _+1, [], _, acc => pure acc
  | f+1, t :: rest, i, acc => do
    let tS ← codegen_type f t
    alias_union f rest (i+1) (acc ++ tS ++ " __" ++ toString i ++ ";\n")

/-- `Codegen::codegen_type_alias`: `typedef T name;`, or an anonymous-union
typedef for a multi-type alias. -/
def codegen_type_alias (f : Nat) (name : String) (types : List Ty) : CM String := do
  let body ←
    match types with
    | [t] => codegen_type f t
    | _ => do
      let u ← alias_union f types 0 ""
      pure ("union \x7b\n" ++ u ++ "\x7d")
  cgModify (fun st => { st with type_aliases := st.type_aliases ++ [name] })
  pure ("typedef " ++ body ++ " " ++ name ++ ";\n")

/-- `Codegen::codegen_variable`: record the type, then emit the array,
function-pointer, or plain declarator, with the initializer unless it is
`Empty`. -/
def codegen_variable (f : Nat) (name : String) (t : Ty) (value : Expr) :
    CM String := do
  cgModify (fun st => { st with variable_types := alInsert st.variable_types name t })
  let decl ←
    match t with
    | Ty.Array elemT size _ => do
      let eS ← codegen_type f elemT
      let sS ← codegen_expression f size
      pure (eS ++ " " ++ name ++ "[" ++ sS ++ "]")
    | Ty.Function args ret _ => do
      let retS ← codegen_type f ret
      let argsS ← codegen_tys_comma f args ""
      let d := retS ++ " (*" ++ name ++ ")(" ++ argsS
      let d := if args.length > 0 then strPop (strPop d) else d
      pure (d ++ ")")
    | _ => do
      let tS ← codegen_type f t
      pure (tS ++ " " ++ name)
  match value with
  | .Empty => pure (decl ++ ";\n")
  | _ => do
    let vS ← codegen_expression f value
    pure (decl ++ " = " ++ vS ++ ";\n")

/-- `Codegen::codegen_constant`. -/
def codegen_constant (f : Nat) (name : String) (t : Ty) (value : Expr) :
    CM String := do
  cgModify (fun st => { st with variable_types := alInsert st.variable_types name t })
  let tS ← codegen_type f t
  let vS ← codegen_expression f value
  pure ("const " ++ tS ++ " " ++ name ++ " = " ++ vS ++ ";\n")

/-- `Codegen::codegen_return`. -/
def codegen_return (f : Nat) (value : Expr) : CM String := do
  let vS ← codegen_expression f value
  pure ("return " ++ vS ++ ";\n")

/-- Rust's `trim_start_matches("std/")`: strip every leading `std/`. -/
def trim_start_std : Nat → String → Option String
  | 0, _ => none
  | f+1, s => if s.startsWith "std/" then trim_start_std f (s.drop 4) else some s

/-- `Codegen::codegen_import`: `std/…` becomes an angle-bracket include,
anything else a quoted include. -/
def codegen_import (f : Nat) (path : String) : CM String :=
  if path.startsWith "std/" then
    match trim_start_std f path with
    | none => cgOut
    | some p => pure ("#include <" ++ p ++ ">\n")
  else
    pure ("#include " ++ (Char.toString quoteChar) ++ path ++ (Char.toString quoteChar) ++ "\n")

/-- The formal-parameter list of an annotation macro (`, `-separated via the
source's `i != len - 1` test). -/
def annot_field_names : List String → Nat → Nat → String → String
  | [], _, _, acc => acc
  | n :: rest, i, total, acc =>
    annot_field_names rest (i+1) total (acc ++ n ++ (if i ≠ total - 1 then ", " else ""))

/-- `Codegen::codegen_annotation_statement` (an `annotation` declaration):
register it and emit the function-like attribute macro. -/
def codegen_annot_statement (name : String) (fields : List (String × Ty)) :
    CM String := do
  cgModify (fun st => { st with annots := alInsert st.annots name fields })
  let q := Char.toString quoteChar
  pure ("#define " ++ name ++ "(" ++ annot_field_names (fields.map (·.1)) 0 fields.length ""
    ++ ") __attribute__((annotate(" ++ q ++ name ++ q ++ ")))\n")

/-- `Codegen::codegen_annotation` (an annotation use): record a `TypeError`
for an unknown annotation name; emits nothing. -/
def codegen_annot (name : String) (location : Loc) : CM String := do
  let st ← cgGet
  if (alLookup st.annots name).isSome then pure ""
  else do
    cgErr (.TypeError ("unknown annotation " ++ name) location)
    pure ""

/-- The unknown-annotation checks at the head of `codegen_annotated`. -/
def annot_checks : List AnnotUse → String → CM String
  | [], acc => pure acc
  | a :: rest, acc => do
    let s ← codegen_annot a.name a.location
    annot_checks rest (acc ++ s)

/-- The argument list of one spliced annotation use. -/
def annot_args_join : Nat → List Expr → Nat → Nat → String → CM String
  | 0, _, _, _, _ => cgOut
  | _+1, [], _, _, acc => pure acc
  | f+1, e :: rest, i, total, acc => do
    let s ← codegen_expression f e
    annot_args_join f rest (i+1) total (acc ++ s ++ (if i ≠ total - 1 then ", " else ""))

/-- The splice loop of `codegen_annotated`: ` name(args…)` per use. -/
def annot_splices : Nat → List AnnotUse → String → CM String
  | 0, _, _ => cgOut
  | _+1, [], code => pure code
  | f+1, a :: rest, code => do
    let argsS ← annot_args_join f a.arguments 0 a.arguments.length ""
    annot_splices f rest (code ++ " " ++ a.name ++ "(" ++ argsS ++ ")")

/-- `Codegen::codegen_annotated`: only `Struct` targets are supported — the
struct is emitted, its closing `;\n` popped off, each annotation use spliced
in, and the `;\n` restored; any other target records a `TypeError`. -/
def codegen_annotated (f : Nat) (inner : Stmt) (annots : List AnnotUse) :
    CM String := do
  let code ← annot_checks annots ""
  match inner with
  | .Struct name fields _ => do
    let sS ← codegen_struct f name fields
    let code := code ++ sS
    let code := strPop (strPop code)
    let code ← annot_splices f annots code
    pure (code ++ ";\n")
  | _ => do
    cgErr (.TypeError "cannot annotate this statement" (stmtLocation inner))
    pure code

/-- The `#undef NAME` block emitted at the end of `codegen_generic`. -/
def generic_undefs : List (String × Option Ty) → String → String
  | [], acc => acc
  | (n, _) :: rest, acc => generic_undefs rest (acc ++ "#undef " ++ n ++ "\n")

/-- `HashMap::remove` for each parameter name after a function body. -/
def remove_params (m : List (String × Ty)) : List (String × Ty) → List (String × Ty)
  | [] => m
  | (n, _) :: rest => remove_params (alRemove m n) rest

mutual

/-- `Codegen::codegen_statement`: dispatch on the statement. -/
def codegen_statement : Nat → Stmt → CM String
  | 0, _ => cgOut
  | f+1, s =>
    match s with
    | .Generic inner tps _ => codegen_generic f inner tps
    | .AnnotDecl name fields _ => codegen_annot_statement name fields
    | .Annotated inner annots _ => codegen_annotated f inner annots
    | .External inner _ => codegen_external f inner
    | .Inline inner _ => codegen_inline f inner
    | .Struct name fields _ => codegen_struct f name fields
    | .Enum name t vars _ => codegen_enum f name t vars
    | .TypeAlias name tys _ => codegen_type_alias f name tys
    | .Function name args ret body _ => codegen_function f name args ret body
    | .StructFunction sn n args ret body _ =>
      codegen_struct_function f sn n args ret body
    | .Variable n t v _ => codegen_variable f n t v
    | .Constant n t v _ => codegen_constant f n t v
    | .Return v _ => codegen_return f v
    | .Import p _ => codegen_import f p
    | .While c body _ => codegen_while f c body
    | .If c b eb _ => codegen_if f c b eb
    | .Expression e _ => do
      let eS ← codegen_expression f e
      pure (eS ++ ";\n")

/-- The statement fold used by bodies. -/
def codegen_statements : Nat → List Stmt → String → CM String
  | 0, _, _ => cgOut
  | _+1, [], acc => pure acc
  | f+1, s :: rest, acc => do
    let cS ← codegen_statement f s
    codegen_statements f rest (acc ++ cS)

/-- `Codegen::codegen_generic`: `#define NAME [bound]` per type parameter
(also recording the parameter names), registration of the parameter list
under the inner function's name, the inner statement, then `#undef NAME`
per parameter. -/
def codegen_generic : Nat → Stmt → List (String × Option Ty) → CM String
  | 0, _, _ => cgOut
  | f+1, inner, tps => do
    let defines ← codegen_generic_defines f tps ""
    match inner with
    | .Function fname _ _ _ _ =>
      cgModify (fun st => { st with
        generic_types := alInsert st.generic_types fname (tps.map (·.1)) })
    | _ => pure ()
    let bodyS ← codegen_statement f inner
    pure (defines ++ bodyS ++ generic_undefs tps "")

/-- The `#define` loop of `codegen_generic` (pushes each name onto
`generic_type_names`, appends the bound's C type when present). -/
def codegen_generic_defines : Nat → List (String × Option Ty) → String → CM String
  | 0, _, _ => cgOut
  | _+1, [], acc => pure acc
  | f+1, (n, b) :: rest, acc => do
    cgModify (fun st => { st with
      generic_type_names := st.generic_type_names ++ [n] })
    match b with
    | some t => do
      let tS ← codegen_type f t
      codegen_generic_defines f rest (acc ++ "#define " ++ n ++ " " ++ tS ++ "\n")
    | none => codegen_generic_defines f rest (acc ++ "#define " ++ n ++ "\n")

/-- `Codegen::codegen_external`. -/
def codegen_external : Nat → Stmt → CM String
  | 0, _ => cgOut
  | f+1, inner => do
    let s ← codegen_statement f inner
    pure ("extern " ++ s)

/-- `Codegen::codegen_inline`. -/
def codegen_inline : Nat → Stmt → CM String
  | 0, _ => cgOut
  | f+1, inner => do
    let s ← codegen_statement f inner
    pure ("inline " ++ s)

/-- The parameter loop of `codegen_function`: record each parameter's type,
emit the pointer-to-function spelling for function-typed parameters. -/
def codegen_fn_params : Nat → List (String × Ty) → String → CM String
  | 0, _, _ => cgOut
  | _+1, [], code => pure code
  | f+1, (an, aty) :: rest, code => do
    cgModify (fun st => { st with
      parameter_types := alInsert st.parameter_types an aty })
    match aty with
    | Ty.Function fargs fret _ => do
      let fretS ← codegen_type f fret
      let fargsS ← codegen_tys_comma f fargs ""
      let part := fretS ++ " (*" ++ an ++ ")(" ++ fargsS
      let part := if fargs.length > 0 then strPop (strPop part) else part
      codegen_fn_params f rest (code ++ part ++ "), ")
    | _ => do
      let atS ← codegen_type f aty
      codegen_fn_params f rest (code ++ atS ++ " " ++ an ++ ", ")

/-- `Codegen::codegen_function`. -/
def codegen_function : Nat → String → List (String × Ty) → Ty → List Stmt → CM String
  | 0, _, _, _, _ => cgOut
  | f+1, name, args, ret, body => do
    let retS ← codegen_type f ret
    let code ← codegen_fn_params f args (retS ++ " " ++ name ++ "(")
    let code := if args.length > 0 then strPop (strPop code) else code
    let code := code ++ ") \x7b\n"
    let bodyS ← codegen_statements f body ""
    let code := code ++ bodyS ++ "\x7d\n"
    cgModify (fun st => { st with
      parameter_types := remove_params st.parameter_types args })
    pure code

/-- The parameter loop of `codegen_struct_function` (no function-pointer
spelling here). -/
def codegen_sfn_params : Nat → List (String × Ty) → String → CM String
  | 0, _, _ => cgOut
  | _+1, [], code => pure code
  | f+1, (an, aty) :: rest, code => do
    cgModify (fun st => { st with
      parameter_types := alInsert st.parameter_types an aty })
    let atS ← codegen_type f aty
    codegen_sfn_params f rest (code ++ atS ++ " " ++ an ++ ", ")

/-- `Codegen::codegen_struct_function`: the method-name push lands on a
*clone* of the stored vector (so nothing is recorded), but the lookup is
still `unwrap`ped — a panic when the struct name was never registered.  The
emitted C name is `__Struct_method`. -/
def codegen_struct_function : Nat → String → String → List (String × Ty) → Ty →
    List Stmt → CM String
  | 0, _, _, _, _, _ => cgOut
  | f+1, sname, name, args, ret, body => do
    let st ← cgGet
    match alLookup st.struct_functions sname with
    | none => cgCrash
    | some _ => do
      let retS ← codegen_type f ret
      let code ← codegen_sfn_params f args
        (retS ++ " __" ++ sname ++ "_" ++ name ++ "(")
      let code := if args.length > 0 then strPop (strPop code) else code
      let code := code ++ ") \x7b\n"
      let bodyS ← codegen_statements f body ""
      let code := code ++ bodyS ++ "\x7d\n"
      cgModify (fun st2 => { st2 with
        parameter_types := remove_params st2.parameter_types args })
      pure code

/-- `Codegen::codegen_while`. -/
def codegen_while : Nat → Expr → List Stmt → CM String
  | 0, _, _ => cgOut
  | f+1, cond, body => do
    let cS ← codegen_expression f cond
    let bS ← codegen_statements f body ""
    pure ("while (" ++ cS ++ ") \x7b\n" ++ bS ++ "\x7d\n")

/-- `Codegen::codegen_if` (an `else if` chain arrives as a singleton nested
`If` in the else body). -/
def codegen_if : Nat → Expr → List Stmt → List Stmt → CM String
  | 0, _, _, _ => cgOut
  | f+1, cond, body, eb => do
    let cS ← codegen_expression f cond
    let bS ← codegen_statements f body ""
    let code := "if (" ++ cS ++ ") \x7b\n" ++ bS ++ "\x7d\n"
    if eb.length > 0 then do
      let eS ← codegen_statements f eb ""
      pure (code ++ "else \x7b\n" ++ eS ++ "\x7d\n")
    else pure code

end

/-- The `#undef` drain at the end of each top-level statement: the source
iterates over a *clone* of `to_undef` with `enumerate` while calling
`Vec::remove(i)` on the live list — `remove` panics (`crash` here) as soon
as `i` reaches the shrunken live length. -/
def drain_undefs : List String → Nat → List String → String → Res (String × List String)
  | [], _, live, code => .ok (code, live)
  | u :: rest, i, live, code =>
    if i < live.length then
      drain_undefs rest (i+1) (live.eraseIdx i) (code ++ "#undef " ++ u ++ "\n")
    else .crash

/-- `Codegen::codegen`: emit each top-level statement, then drain the
`to_undef` list. -/
def codegen_program_loop : Nat → List Stmt → String → CM String
  | 0, _, _ => cgOut
  | _+1, [], code => pure code
  | f+1, s :: rest, code => do
    let sC ← codegen_statement f s
    let st ← cgGet
    match drain_undefs st.to_undef 0 st.to_undef (code ++ sC) with
    | .ok (code', live) => do
      cgSet { st with to_undef := live }
      codegen_program_loop f rest code'
    | .crash => cgCrash
    | .fuelOut => cgOut

/-- Run the code generator from a fresh state (`Codegen::new` + `codegen`). -/
def codegenProgram (fuel : Nat) (stmts : List Stmt) : Res (String × CG) :=
  match codegen_program_loop fuel stmts "" initCG with
  | .ok (code, st) => .ok (code, st)
  | .crash => .crash
  | .fuelOut => .fuelOut

/-! ## Claim C1: non-termination of `Parser::parse`

The run of `Parser::parse` on the token list of `id[int](5)\n` falls
through the generic-call suffix into the ordinary-call parse, whose
argument loop sits on the `Newline` token forever (`parse_primary` returns
an `Error` expression without advancing); the run on `while x\n` (no
`end`) loops in the body loop at the `EndOfFile` sentinel the same way.
Divergence is expressed as: for *every* fuel the run is still unfinished.
The lemmas below first show each expression-chain parser is "stuck" at the
relevant state (it consumes nothing), then that the two loops diverge, then
splice that into the concrete run prefix. -/


lemma PM_run_bind (x : PM α) (g : α → PM β) (st : PSt) :
    (x >>= g) st = match x st with
      | .ok (a, st') => g a st'
      | .crash => .crash
      | .fuelOut => .fuelOut := rfl

lemma bind_fuelOut (x : PM α) (g : α → PM β) (st : PSt) (h : x st = .fuelOut) :
    (x >>= g) st = .fuelOut := by
  show PM.bind x g st = .fuelOut
  unfold PM.bind
  rw [h]

-- tokens of "id[int](5)\n"
def toksGC : List Token :=
  [ ⟨.Identifier, "id", ⟨0, 2⟩⟩, ⟨.OpenBracket, "[", ⟨2, 3⟩⟩,
    ⟨.Int, "int", ⟨3, 6⟩⟩, ⟨.CloseBracket, "]", ⟨6, 7⟩⟩,
    ⟨.OpenParen, "(", ⟨7, 8⟩⟩, ⟨.NumberLit, "5", ⟨8, 9⟩⟩,
    ⟨.CloseParen, ")", ⟨9, 10⟩⟩, ⟨.Newline, "\n", ⟨11, 11⟩⟩ ]

def stGC7 : PSt := ⟨toksGC, [], 7, []⟩

-- stuck lemmas, specialized to stGC7 to start with
lemma prim7 : ∀ f, parse_primary f stGC7 = .fuelOut ∨
    ∃ e, parse_primary f stGC7 = .ok (e, stGC7) := by
  intro f
  cases f with
  | zero => left; rfl
  | succ f => right; exact ⟨_, rfl⟩

lemma sfx7 : ∀ f e, parse_call_suffixes f e stGC7 = .fuelOut ∨
    parse_call_suffixes f e stGC7 = .ok (e, stGC7) := by
  intro f e
  cases f with
  | zero => left; rfl
  | succ f => right; rfl

lemma call7 : ∀ f, parse_call f stGC7 = .fuelOut ∨
    ∃ e, parse_call f stGC7 = .ok (e, stGC7) := by
  intro f
  cases f with
  | zero => left; rfl
  | succ f =>
    have hdef : parse_call (f+1) stGC7 = (parse_primary f >>= parse_call_suffixes f) stGC7 := rfl
    rw [hdef]
    rcases prim7 f with h | ⟨e, h⟩
    · left; exact bind_fuelOut _ _ _ h
    · rw [PM_run_bind, h]
      rcases sfx7 f e with h2 | h2
      · left; exact h2
      · right; exact ⟨e, h2⟩

lemma PM_run_pure (a : α) (st : PSt) : (pure a : PM α) st = .ok (a, st) := rfl

-- full chain of stuck lemmas at stGC7
lemma rops7 : ∀ f e, parse_range_ops f e stGC7 = .fuelOut ∨
    parse_range_ops f e stGC7 = .ok (e, stGC7) := by
  intro f e
  cases f with
  | zero => left; rfl
  | succ f => right; rfl

lemma stuck_comp {st : PSt} (x : PM Expr) (k : Nat → Expr → PM Expr) (f : Nat)
    (hx : x st = .fuelOut ∨ ∃ e, x st = .ok (e, st))
    (hk : ∀ g e, k g e st = .fuelOut ∨ k g e st = .ok (e, st)) :
    (x >>= k f) st = .fuelOut ∨ ∃ e, (x >>= k f) st = .ok (e, st) := by
  rcases hx with h | ⟨e, h⟩
  · left; exact bind_fuelOut _ _ _ h
  · rw [PM_run_bind, h]
    rcases hk f e with h2 | h2
    · left; exact h2
    · right; exact ⟨e, h2⟩

lemma range7 : ∀ f, parse_range f stGC7 = .fuelOut ∨
    ∃ e, parse_range f stGC7 = .ok (e, stGC7) := by
  intro f
  cases f with
  | zero => left; rfl
  | succ f =>
    have hdef : parse_range (f+1) stGC7 = (parse_call f >>= parse_range_ops f) stGC7 := rfl
    rw [hdef]
    exact stuck_comp _ _ f (call7 f) rops7

lemma cops7 : ∀ f e, parse_cast_ops f e stGC7 = .fuelOut ∨
    parse_cast_ops f e stGC7 = .ok (e, stGC7) := by
  intro f e; cases f with
  | zero => left; rfl
  | succ f => right; rfl

lemma cast7 : ∀ f, parse_cast f stGC7 = .fuelOut ∨
    ∃ e, parse_cast f stGC7 = .ok (e, stGC7) := by
  intro f; cases f with
  | zero => left; rfl
  | succ f =>
    have hdef : parse_cast (f+1) stGC7 = (parse_range f >>= parse_cast_ops f) stGC7 := rfl
    rw [hdef]; exact stuck_comp _ _ f (range7 f) cops7

lemma mops7 : ∀ f e, parse_member_ops f e stGC7 = .fuelOut ∨
    parse_member_ops f e stGC7 = .ok (e, stGC7) := by
  intro f e; cases f with
  | zero => left; rfl
  | succ f => right; rfl

lemma member7 : ∀ f, parse_member f stGC7 = .fuelOut ∨
    ∃ e, parse_member f stGC7 = .ok (e, stGC7) := by
  intro f; cases f with
  | zero => left; rfl
  | succ f =>
    have hdef : parse_member (f+1) stGC7 = (parse_cast f >>= parse_member_ops f) stGC7 := rfl
    rw [hdef]; exact stuck_comp _ _ f (cast7 f) mops7

lemma iops7 : ∀ f e, parse_index_ops f e stGC7 = .fuelOut ∨
    parse_index_ops f e stGC7 = .ok (e, stGC7) := by
  intro f e; cases f with
  | zero => left; rfl
  | succ f => right; rfl

lemma index7 : ∀ f, parse_index f stGC7 = .fuelOut ∨
    ∃ e, parse_index f stGC7 = .ok (e, stGC7) := by
  intro f; cases f with
  | zero => left; rfl
  | succ f =>
    have hdef : parse_index (f+1) stGC7 = (parse_member f >>= parse_index_ops f) stGC7 := rfl
    rw [hdef]; exact stuck_comp _ _ f (member7 f) iops7

lemma unary7 : ∀ f, parse_unary f stGC7 = .fuelOut ∨
    ∃ e, parse_unary f stGC7 = .ok (e, stGC7) := by
  intro f; cases f with
  | zero => left; rfl
  | succ f =>
    have hdef : parse_unary (f+1) stGC7 = parse_index f stGC7 := rfl
    rw [hdef]; exact index7 f

lemma grouping7 : ∀ f, parse_grouping f stGC7 = .fuelOut ∨
    ∃ e, parse_grouping f stGC7 = .ok (e, stGC7) := by
  intro f; cases f with
  | zero => left; rfl
  | succ f =>
    have hdef : parse_grouping (f+1) stGC7 = parse_unary f stGC7 := rfl
    rw [hdef]; exact unary7 f

lemma mulops7 : ∀ f e, parse_multiplicative_ops f e stGC7 = .fuelOut ∨
    parse_multiplicative_ops f e stGC7 = .ok (e, stGC7) := by
  intro f e; cases f with
  | zero => left; rfl
  | succ f => right; rfl

lemma mul7 : ∀ f, parse_multiplicative f stGC7 = .fuelOut ∨
    ∃ e, parse_multiplicative f stGC7 = .ok (e, stGC7) := by
  intro f; cases f with
  | zero => left; rfl
  | succ f =>
    have hdef : parse_multiplicative (f+1) stGC7 =
      (parse_grouping f >>= parse_multiplicative_ops f) stGC7 := rfl
    rw [hdef]; exact stuck_comp _ _ f (grouping7 f) mulops7

lemma addops7 : ∀ f e, parse_additive_ops f e stGC7 = .fuelOut ∨
    parse_additive_ops f e stGC7 = .ok (e, stGC7) := by
  intro f e; cases f with
  | zero => left; rfl
  | succ f => right; rfl

lemma add7 : ∀ f, parse_additive f stGC7 = .fuelOut ∨
    ∃ e, parse_additive f stGC7 = .ok (e, stGC7) := by
  intro f; cases f with
  | zero => left; rfl
  | succ f =>
    have hdef : parse_additive (f+1) stGC7 =
      (parse_multiplicative f >>= parse_additive_ops f) stGC7 := rfl
    rw [hdef]; exact stuck_comp _ _ f (mul7 f) addops7

lemma cmpops7 : ∀ f e, parse_comparison_ops f e stGC7 = .fuelOut ∨
    parse_comparison_ops f e stGC7 = .ok (e, stGC7) := by
  intro f e; cases f with
  | zero => left; rfl
  | succ f => right; rfl

lemma cmp7 : ∀ f, parse_comparison f stGC7 = .fuelOut ∨
    ∃ e, parse_comparison f stGC7 = .ok (e, stGC7) := by
  intro f; cases f with
  | zero => left; rfl
  | succ f =>
    have hdef : parse_comparison (f+1) stGC7 =
      (parse_additive f >>= parse_comparison_ops f) stGC7 := rfl
    rw [hdef]; exact stuck_comp _ _ f (add7 f) cmpops7

lemma asgn7 : ∀ f, parse_assignment f stGC7 = .fuelOut ∨
    ∃ e, parse_assignment f stGC7 = .ok (e, stGC7) := by
  intro f; cases f with
  | zero => left; rfl
  | succ f =>
    have hdef : parse_assignment (f+1) stGC7 =
      (parse_comparison f >>= fun e => do
        let c ← pCurrent
        if c.kind = .Equal then do
          let _ ← expect .Equal
          let r ← parse_expression f
          pure (.Assignment e r c.location)
        else pure e) stGC7 := rfl
    rw [hdef]
    rcases cmp7 f with h | ⟨e, h⟩
    · left; exact bind_fuelOut _ _ _ h
    · rw [PM_run_bind, h]; right; exact ⟨e, rfl⟩

lemma tern7 : ∀ f, parse_ternary f stGC7 = .fuelOut ∨
    ∃ e, parse_ternary f stGC7 = .ok (e, stGC7) := by
  intro f; cases f with
  | zero => left; rfl
  | succ f =>
    have hdef : parse_ternary (f+1) stGC7 =
      (parse_assignment f >>= fun e => do
        let c ← pCurrent
        if c.kind = .If then do
          let _ ← expect .If
          let cond ← parse_expression f
          let _ ← expect .Else
          let els ← parse_expression f
          pure (.Ternary cond e els c.location)
        else pure e) stGC7 := rfl
    rw [hdef]
    rcases asgn7 f with h | ⟨e, h⟩
    · left; exact bind_fuelOut _ _ _ h
    · rw [PM_run_bind, h]; right; exact ⟨e, rfl⟩

lemma expr7 : ∀ f, parse_expression f stGC7 = .fuelOut ∨
    ∃ e, parse_expression f stGC7 = .ok (e, stGC7) := by
  intro f; cases f with
  | zero => left; rfl
  | succ f =>
    have hdef : parse_expression (f+1) stGC7 = parse_ternary f stGC7 := rfl
    rw [hdef]; exact tern7 f

-- the divergent loop
lemma args_div : ∀ f acc, parse_call_args f acc stGC7 = .fuelOut := by
  intro f
  induction f with
  | zero => intro acc; rfl
  | succ f ih =>
    intro acc
    have hdef : parse_call_args (f+1) acc stGC7 =
        (parse_expression f >>= fun e => do
          let c2 ← pCurrent
          if c2.kind = .Comma then do
            let _ ← expect .Comma
            parse_call_args f (acc ++ [e])
          else parse_call_args f (acc ++ [e])) stGC7 := rfl
    rw [hdef]
    rcases expr7 f with h | ⟨e, h⟩
    · exact bind_fuelOut _ _ _ h
    · rw [PM_run_bind, h]
      exact ih (acc ++ [e])

set_option maxHeartbeats 1600000

def stGC0 : PSt := ⟨toksGC, [], 0, []⟩
def stGC1 : PSt := ⟨toksGC, [], 1, []⟩

lemma lc_prim : ∀ g, parse_primary (g+1) stGC0 = .ok (.Identifier "id" ⟨0,2⟩, stGC1) :=
  fun _ => rfl

lemma lc_sfx : ∀ g, parse_call_suffixes (g+18) (.Identifier "id" ⟨0,2⟩) stGC1 = .fuelOut := by
  intro g
  have hdef : parse_call_suffixes (g+18) (.Identifier "id" ⟨0,2⟩) stGC1 =
      (parse_call_args (g+17) [] >>= fun args => do
        let _ ← expect .CloseParen
        let name ← callee_name
          (Expr.GenericCall "id" [Ty.Int ⟨3,6⟩] [Expr.Number 5 ⟨8,9⟩] ⟨2,3⟩)
        parse_call_suffixes (g+17) (.Call name args ⟨11,11⟩)) stGC7 := rfl
  rw [hdef]
  exact bind_fuelOut _ _ _ (args_div _ _)

lemma lc_call : ∀ g, parse_call (g+19) stGC0 = .fuelOut := by
  intro g
  have hdef : parse_call (g+19) stGC0 =
      (parse_primary (g+18) >>= parse_call_suffixes (g+18)) stGC0 := rfl
  rw [hdef, PM_run_bind, lc_prim (g+17)]
  exact lc_sfx g

lemma lc_range : ∀ g, parse_range (g+20) stGC0 = .fuelOut := by
  intro g
  have hdef : parse_range (g+20) stGC0 =
      (parse_call (g+19) >>= parse_range_ops (g+19)) stGC0 := rfl
  rw [hdef, PM_run_bind, lc_call g]

lemma lc_cast : ∀ g, parse_cast (g+21) stGC0 = .fuelOut := by
  intro g
  have hdef : parse_cast (g+21) stGC0 =
      (parse_range (g+20) >>= parse_cast_ops (g+20)) stGC0 := rfl
  rw [hdef, PM_run_bind, lc_range g]

lemma lc_member : ∀ g, parse_member (g+22) stGC0 = .fuelOut := by
  intro g
  have hdef : parse_member (g+22) stGC0 =
      (parse_cast (g+21) >>= parse_member_ops (g+21)) stGC0 := rfl
  rw [hdef, PM_run_bind, lc_cast g]

lemma lc_index : ∀ g, parse_index (g+23) stGC0 = .fuelOut := by
  intro g
  have hdef : parse_index (g+23) stGC0 =
      (parse_member (g+22) >>= parse_index_ops (g+22)) stGC0 := rfl
  rw [hdef, PM_run_bind, lc_member g]

lemma lc_unary : ∀ g, parse_unary (g+24) stGC0 = .fuelOut := by
  intro g
  have hdef : parse_unary (g+24) stGC0 = parse_index (g+23) stGC0 := rfl
  rw [hdef]; exact lc_index g

lemma lc_grouping : ∀ g, parse_grouping (g+25) stGC0 = .fuelOut := by
  intro g
  have hdef : parse_grouping (g+25) stGC0 = parse_unary (g+24) stGC0 := rfl
  rw [hdef]; exact lc_unary g

lemma lc_mul : ∀ g, parse_multiplicative (g+26) stGC0 = .fuelOut := by
  intro g
  have hdef : parse_multiplicative (g+26) stGC0 =
      (parse_grouping (g+25) >>= parse_multiplicative_ops (g+25)) stGC0 := rfl
  rw [hdef, PM_run_bind, lc_grouping g]

lemma lc_add : ∀ g, parse_additive (g+27) stGC0 = .fuelOut := by
  intro g
  have hdef : parse_additive (g+27) stGC0 =
      (parse_multiplicative (g+26) >>= parse_additive_ops (g+26)) stGC0 := rfl
  rw [hdef, PM_run_bind, lc_mul g]

lemma lc_cmp : ∀ g, parse_comparison (g+28) stGC0 = .fuelOut := by
  intro g
  have hdef : parse_comparison (g+28) stGC0 =
      (parse_additive (g+27) >>= parse_comparison_ops (g+27)) stGC0 := rfl
  rw [hdef, PM_run_bind, lc_add g]

lemma lc_asgn : ∀ g, parse_assignment (g+29) stGC0 = .fuelOut := by
  intro g
  have hdef : parse_assignment (g+29) stGC0 =
      (parse_comparison (g+28) >>= fun e => do
        let c ← pCurrent
        if c.kind = .Equal then do
          let _ ← expect .Equal
          let r ← parse_expression (g+28)
          pure (.Assignment e r c.location)
        else pure e) stGC0 := rfl
  rw [hdef, PM_run_bind, lc_cmp g]

lemma lc_tern : ∀ g, parse_ternary (g+30) stGC0 = .fuelOut := by
  intro g
  have hdef : parse_ternary (g+30) stGC0 =
      (parse_assignment (g+29) >>= fun e => do
        let c ← pCurrent
        if c.kind = .If then do
          let _ ← expect .If
          let cond ← parse_expression (g+29)
          let _ ← expect .Else
          let els ← parse_expression (g+29)
          pure (.Ternary cond e els c.location)
        else pure e) stGC0 := rfl
  rw [hdef, PM_run_bind, lc_asgn g]

lemma lc_expr : ∀ g, parse_expression (g+31) stGC0 = .fuelOut := by
  intro g
  have hdef : parse_expression (g+31) stGC0 = parse_ternary (g+30) stGC0 := rfl
  rw [hdef]; exact lc_tern g

lemma lc_stmt : ∀ g, parse_statement (g+32) stGC0 = .fuelOut := by
  intro g
  have hdef : parse_statement (g+32) stGC0 =
      (parse_expression (g+31) >>= fun e => do
        let c2 ← pCurrent
        pure (Stmt.Expression e c2.location)) stGC0 := rfl
  rw [hdef, PM_run_bind, lc_expr g]

lemma lc_loop : ∀ g, parse_loop (g+33) stGC0 = .fuelOut := by
  intro g
  have hdef : parse_loop (g+33) stGC0 =
      (parse_statement (g+32) >>= fun s =>
        pPush s >>= fun _ => parse_loop (g+32)) stGC0 := rfl
  rw [hdef, PM_run_bind, lc_stmt g]

set_option maxHeartbeats 8000000 in
lemma parse_gc_fuelOut_all : ∀ f, parseRun f toksGC = .fuelOut := by
  intro f
  rcases Nat.lt_or_ge f 33 with hf | hf
  · have : parse_loop f stGC0 = .fuelOut := by
      interval_cases f <;> rfl
    unfold parseRun
    rw [show (⟨toksGC, [], 0, []⟩ : PSt) = stGC0 from rfl, this]
  · obtain ⟨g, rfl⟩ : ∃ g, f = g + 33 := ⟨f - 33, by omega⟩
    unfold parseRun
    rw [show (⟨toksGC, [], 0, []⟩ : PSt) = stGC0 from rfl, lc_loop g]

-- ## while-with-missing-end side

def toksW : List Token :=
  [ ⟨.While, "while", ⟨0, 5⟩⟩, ⟨.Identifier, "x", ⟨6, 7⟩⟩, ⟨.Newline, "\n", ⟨8, 8⟩⟩ ]

def stW0 : PSt := ⟨toksW, [], 0, []⟩
def stW1 : PSt := ⟨toksW, [], 1, []⟩
def stW2 : PSt := ⟨toksW, [], 2, []⟩
def stW3 : PSt := ⟨toksW, [], 3, []⟩

lemma w_prim : ∀ f, parse_primary f stW3 = .fuelOut ∨
    ∃ e, parse_primary f stW3 = .ok (e, stW3) := by
  intro f; cases f with
  | zero => left; rfl
  | succ f => right; exact ⟨_, rfl⟩

lemma w_sfx : ∀ f e, parse_call_suffixes f e stW3 = .fuelOut ∨
    parse_call_suffixes f e stW3 = .ok (e, stW3) := by
  intro f e; cases f with
  | zero => left; rfl
  | succ f => right; rfl

lemma w_call : ∀ f, parse_call f stW3 = .fuelOut ∨
    ∃ e, parse_call f stW3 = .ok (e, stW3) := by
  intro f; cases f with
  | zero => left; rfl
  | succ f =>
    have hdef : parse_call (f+1) stW3 = (parse_primary f >>= parse_call_suffixes f) stW3 := rfl
    rw [hdef]
    rcases w_prim f with h | ⟨e, h⟩
    · left; exact bind_fuelOut _ _ _ h
    · rw [PM_run_bind, h]
      rcases w_sfx f e with h2 | h2
      · left; exact h2
      · right; exact ⟨e, h2⟩

lemma w_rops : ∀ f e, parse_range_ops f e stW3 = .fuelOut ∨
    parse_range_ops f e stW3 = .ok (e, stW3) := by
  intro f e; cases f with
  | zero => left; rfl
  | succ f => right; rfl

lemma w_range : ∀ f, parse_range f stW3 = .fuelOut ∨
    ∃ e, parse_range f stW3 = .ok (e, stW3) := by
  intro f; cases f with
  | zero => left; rfl
  | succ f =>
    have hdef : parse_range (f+1) stW3 = (parse_call f >>= parse_range_ops f) stW3 := rfl
    rw [hdef]; exact stuck_comp _ _ f (w_call f) w_rops

lemma w_cops : ∀ f e, parse_cast_ops f e stW3 = .fuelOut ∨
    parse_cast_ops f e stW3 = .ok (e, stW3) := by
  intro f e; cases f with
  | zero => left; rfl
  | succ f => right; rfl

lemma w_cast : ∀ f, parse_cast f stW3 = .fuelOut ∨
    ∃ e, parse_cast f stW3 = .ok (e, stW3) := by
  intro f; cases f with
  | zero => left; rfl
  | succ f =>
    have hdef : parse_cast (f+1) stW3 = (parse_range f >>= parse_cast_ops f) stW3 := rfl
    rw [hdef]; exact stuck_comp _ _ f (w_range f) w_cops

lemma w_mops : ∀ f e, parse_member_ops f e stW3 = .fuelOut ∨
    parse_member_ops f e stW3 = .ok (e, stW3) := by
  intro f e; cases f with
  | zero => left; rfl
  | succ f => right; rfl

lemma w_member : ∀ f, parse_member f stW3 = .fuelOut ∨
    ∃ e, parse_member f stW3 = .ok (e, stW3) := by
  intro f; cases f with
  | zero => left; rfl
  | succ f =>
    have hdef : parse_member (f+1) stW3 = (parse_cast f >>= parse_member_ops f) stW3 := rfl
    rw [hdef]; exact stuck_comp _ _ f (w_cast f) w_mops

lemma w_iops : ∀ f e, parse_index_ops f e stW3 = .fuelOut ∨
    parse_index_ops f e stW3 = .ok (e, stW3) := by
  intro f e; cases f with
  | zero => left; rfl
  | succ f => right; rfl

lemma w_index : ∀ f, parse_index f stW3 = .fuelOut ∨
    ∃ e, parse_index f stW3 = .ok (e, stW3) := by
  intro f; cases f with
  | zero => left; rfl
  | succ f =>
    have hdef : parse_index (f+1) stW3 = (parse_member f >>= parse_index_ops f) stW3 := rfl
    rw [hdef]; exact stuck_comp _ _ f (w_member f) w_iops

lemma w_unary : ∀ f, parse_unary f stW3 = .fuelOut ∨
    ∃ e, parse_unary f stW3 = .ok (e, stW3) := by
  intro f; cases f with
  | zero => left; rfl
  | succ f =>
    have hdef : parse_unary (f+1) stW3 = parse_index f stW3 := rfl
    rw [hdef]; exact w_index f

lemma w_grouping : ∀ f, parse_grouping f stW3 = .fuelOut ∨
    ∃ e, parse_grouping f stW3 = .ok (e, stW3) := by
  intro f; cases f with
  | zero => left; rfl
  | succ f =>
    have hdef : parse_grouping (f+1) stW3 = parse_unary f stW3 := rfl
    rw [hdef]; exact w_unary f

lemma w_mulops : ∀ f e, parse_multiplicative_ops f e stW3 = .fuelOut ∨
    parse_multiplicative_ops f e stW3 = .ok (e, stW3) := by
  intro f e; cases f with
  | zero => left; rfl
  | succ f => right; rfl

lemma w_mul : ∀ f, parse_multiplicative f stW3 = .fuelOut ∨
    ∃ e, parse_multiplicative f stW3 = .ok (e, stW3) := by
  intro f; cases f with
  | zero => left; rfl
  | succ f =>
    have hdef : parse_multiplicative (f+1) stW3 =
      (parse_grouping f >>= parse_multiplicative_ops f) stW3 := rfl
    rw [hdef]; exact stuck_comp _ _ f (w_grouping f) w_mulops

lemma w_addops : ∀ f e, parse_additive_ops f e stW3 = .fuelOut ∨
    parse_additive_ops f e stW3 = .ok (e, stW3) := by
  intro f e; cases f with
  | zero => left; rfl
  | succ f => right; rfl

lemma w_add : ∀ f, parse_additive f stW3 = .fuelOut ∨
    ∃ e, parse_additive f stW3 = .ok (e, stW3) := by
  intro f; cases f with
  | zero => left; rfl
  | succ f =>
    have hdef : parse_additive (f+1) stW3 =
      (parse_multiplicative f >>= parse_additive_ops f) stW3 := rfl
    rw [hdef]; exact stuck_comp _ _ f (w_mul f) w_addops

lemma w_cmpops : ∀ f e, parse_comparison_ops f e stW3 = .fuelOut ∨
    parse_comparison_ops f e stW3 = .ok (e, stW3) := by
  intro f e; cases f with
  | zero => left; rfl
  | succ f => right; rfl

lemma w_cmp : ∀ f, parse_comparison f stW3 = .fuelOut ∨
    ∃ e, parse_comparison f stW3 = .ok (e, stW3) := by
  intro f; cases f with
  | zero => left; rfl
  | succ f =>
    have hdef : parse_comparison (f+1) stW3 =
      (parse_additive f >>= parse_comparison_ops f) stW3 := rfl
    rw [hdef]; exact stuck_comp _ _ f (w_add f) w_cmpops

lemma w_asgn : ∀ f, parse_assignment f stW3 = .fuelOut ∨
    ∃ e, parse_assignment f stW3 = .ok (e, stW3) := by
  intro f; cases f with
  | zero => left; rfl
  | succ f =>
    have hdef : parse_assignment (f+1) stW3 =
      (parse_comparison f >>= fun e => do
        let c ← pCurrent
        if c.kind = .Equal then do
          let _ ← expect .Equal
          let r ← parse_expression f
          pure (.Assignment e r c.location)
        else pure e) stW3 := rfl
    rw [hdef]
    rcases w_cmp f with h | ⟨e, h⟩
    · left; exact bind_fuelOut _ _ _ h
    · rw [PM_run_bind, h]; right; exact ⟨e, rfl⟩

lemma w_tern : ∀ f, parse_ternary f stW3 = .fuelOut ∨
    ∃ e, parse_ternary f stW3 = .ok (e, stW3) := by
  intro f; cases f with
  | zero => left; rfl
  | succ f =>
    have hdef : parse_ternary (f+1) stW3 =
      (parse_assignment f >>= fun e => do
        let c ← pCurrent
        if c.kind = .If then do
          let _ ← expect .If
          let cond ← parse_expression f
          let _ ← expect .Else
          let els ← parse_expression f
          pure (.Ternary cond e els c.location)
        else pure e) stW3 := rfl
    rw [hdef]
    rcases w_asgn f with h | ⟨e, h⟩
    · left; exact bind_fuelOut _ _ _ h
    · rw [PM_run_bind, h]; right; exact ⟨e, rfl⟩

lemma w_expr : ∀ f, parse_expression f stW3 = .fuelOut ∨
    ∃ e, parse_expression f stW3 = .ok (e, stW3) := by
  intro f; cases f with
  | zero => left; rfl
  | succ f =>
    have hdef : parse_expression (f+1) stW3 = parse_ternary f stW3 := rfl
    rw [hdef]; exact w_tern f

lemma w_stmt : ∀ f, parse_statement f stW3 = .fuelOut ∨
    ∃ s, parse_statement f stW3 = .ok (s, stW3) := by
  intro f; cases f with
  | zero => left; rfl
  | succ f =>
    have hdef : parse_statement (f+1) stW3 =
      (parse_expression f >>= fun e => do
        let c2 ← pCurrent
        pure (Stmt.Expression e c2.location)) stW3 := rfl
    rw [hdef]
    rcases w_expr f with h | ⟨e, h⟩
    · left; exact bind_fuelOut _ _ _ h
    · rw [PM_run_bind, h]; right; exact ⟨_, rfl⟩

lemma w_body_div : ∀ f acc, parse_while_body f acc stW3 = .fuelOut := by
  intro f
  induction f with
  | zero => intro acc; rfl
  | succ f ih =>
    intro acc
    have hdef : parse_while_body (f+1) acc stW3 =
      (parse_statement f >>= fun s => parse_while_body f (acc ++ [s])) stW3 := rfl
    rw [hdef]
    rcases w_stmt f with h | ⟨s, h⟩
    · exact bind_fuelOut _ _ _ h
    · rw [PM_run_bind, h]
      exact ih (acc ++ [s])

lemma lw_while : ∀ g, parse_while (g+16) stW0 = .fuelOut := by
  intro g
  have hdef : parse_while (g+16) stW0 =
      (parse_while_body (g+15) [] >>= fun body => do
        let _ ← expect .End
        pure (Stmt.While (Expr.Identifier "x" ⟨6,7⟩) body ⟨0,5⟩)) stW3 := rfl
  rw [hdef]
  exact bind_fuelOut _ _ _ (w_body_div _ _)

lemma lw_stmt : ∀ g, parse_statement (g+17) stW0 = .fuelOut := by
  intro g
  have hdef : parse_statement (g+17) stW0 = parse_while (g+16) stW0 := rfl
  rw [hdef]; exact lw_while g

lemma lw_loop : ∀ g, parse_loop (g+18) stW0 = .fuelOut := by
  intro g
  have hdef : parse_loop (g+18) stW0 =
      (parse_statement (g+17) >>= fun s =>
        pPush s >>= fun _ => parse_loop (g+17)) stW0 := rfl
  rw [hdef, PM_run_bind, lw_stmt g]

set_option maxHeartbeats 4000000 in
lemma parse_w_fuelOut_all : ∀ f, parseRun f toksW = .fuelOut := by
  intro f
  rcases Nat.lt_or_ge f 18 with hf | hf
  · have : parse_loop f stW0 = .fuelOut := by
      interval_cases f <;> rfl
    unfold parseRun
    rw [show (⟨toksW, [], 0, []⟩ : PSt) = stW0 from rfl, this]
  · obtain ⟨g, rfl⟩ : ∃ g, f = g + 18 := ⟨f - 18, by omega⟩
    unfold parseRun
    rw [show (⟨toksW, [], 0, []⟩ : PSt) = stW0 from rfl, lw_loop g]

/-- C1: the claim says the pipeline always terminates — in particular that
`Parser::parse` terminates on every finite token list, including the token
list of `id[int](5)` followed by a newline and the one of a `while` block
whose `end` is missing at end of file.  The code refutes this: on both
token lists (produced by the lexer exactly as stated here) the parser loops
forever — for every fuel bound the run is still unfinished, because
`expect` returns an `Error` token without advancing and the call-argument
and block-body loops never progress past the `Newline` / `EndOfFile`
token. -/
theorem c1_parse_does_not_terminate :
    lexRun 100 "id[int](5)\n" = some ⟨"id[int](5)\n".toList, toksGC, 11, []⟩ ∧
    lexRun 100 "while x\n" = some ⟨"while x\n".toList, toksW, 8, []⟩ ∧
    (∀ f, parseRun f toksGC = .fuelOut) ∧
    (∀ f, parseRun f toksW = .fuelOut) :=
  ⟨rfl, rfl, parse_gc_fuelOut_all, parse_w_fuelOut_all⟩

/-! ## Claims C2 and C3: panics -/

/-- C2: the claim says no stage ever panics.  The code refutes it at all
three named places: `parse_call` indexes `tokens[current + 2]` out of
bounds when an opening `[` call suffix has fewer than three tokens after
the cursor; `parse_primary` `unwrap`s the `i64` parse of a number literal
whose decimal text (`2^63` here) exceeds the signed 64-bit range; and the
code generator `unwrap`s `generic_types.get(name)` for a `GenericCall`
whose callee has no registered generic type parameters. -/
theorem c2_parser_and_codegen_panic :
    parseRun 100 [⟨.Identifier, "a", ⟨0, 1⟩⟩, ⟨.OpenBracket, "[", ⟨1, 2⟩⟩] = .crash ∧
    parseRun 100 [⟨.NumberLit, "9223372036854775808", ⟨0, 19⟩⟩,
      ⟨.Newline, "\n", ⟨19, 20⟩⟩] = .crash ∧
    codegenProgram 100 [.Expression (.GenericCall "f" [] [] ⟨0, 0⟩) ⟨0, 0⟩] = .crash :=
  ⟨rfl, rfl, rfl⟩

/-- A generic two-parameter function declaration `func pair[T, U]() end`. -/
def genericPairDecl : Stmt :=
  .Generic (.Function "pair" [] (.Void ⟨0, 0⟩) [] ⟨0, 0⟩)
    [("T", none), ("U", none)] ⟨0, 0⟩

/-- A call site `pair[int, int]()` of the generic function, queueing the
two names `T` and `U` onto `to_undef`. -/
def genericPairCall : Stmt :=
  .Expression (.GenericCall "pair" [.Int ⟨0, 0⟩, .Int ⟨0, 0⟩] [] ⟨0, 0⟩) ⟨0, 0⟩

/-- A generic one-parameter function declaration `func id[T](x: T): T => x`. -/
def genericIdDecl : Stmt :=
  .Generic (.Function "id" [("x", .Unknown "T" ⟨0, 0⟩)] (.Unknown "T" ⟨0, 0⟩)
    [.Return (.Identifier "x" ⟨0, 0⟩) ⟨0, 0⟩] ⟨0, 0⟩) [("T", none)] ⟨0, 0⟩

/-- A call site `id[int](5)` of the one-parameter generic function. -/
def genericIdCall : Stmt :=
  .Expression (.GenericCall "id" [.Int ⟨0, 0⟩] [.Number 5 ⟨0, 0⟩] ⟨0, 0⟩) ⟨0, 0⟩

/-- C3: the claim says `to_undef` is drained to empty — one `#undef` line
per queued entry — after each top-level statement, even when a statement
queues two or more names.  The code refutes the two-name case: the drain
loop enumerates a *clone* of `to_undef` while calling `Vec::remove(i)` on
the live list, so after removing index 0 the call `remove(1)` on the
one-element remainder panics (first conjunct).  With a single queued name
the drain does behave as claimed: the `id[int](5)` call site emits its
`#undef T` and leaves `to_undef` empty (second conjunct). -/
theorem c3_drain_crash_with_two_undefs :
    codegenProgram 100 [genericPairDecl, genericPairCall] = .crash ∧
    ∃ st, codegenProgram 100 [genericIdDecl, genericIdCall] =
        .ok ("#define T\nT id(T x) \x7b\nreturn x;\n\x7d\n#undef T\n#define T int\nid(5);\n#undef T\n", st) ∧
      st.to_undef = [] :=
  ⟨rfl, _, rfl, rfl⟩
/-! ## Claim C10: struct_functions stays empty -/

lemma CM_run_bind (x : CM α) (g : α → CM β) (st : CG) :
    (x >>= g) st = match x st with
      | .ok (a, st') => g a st'
      | .crash => .crash
      | .fuelOut => .fuelOut := rfl

/-- The two state components claim C10 is about. -/
def SF (st : CG) : List String × List (String × List String) :=
  (st.structs, st.struct_functions)

/-- `m` never changes `structs` or `struct_functions`. -/
def Frames (m : CM α) : Prop :=
  ∀ st a st', m st = .ok (a, st') → SF st' = SF st

/-- The C10 invariant: every registered struct name maps to `[]`, and every
binding in the method table is `[]`. -/
def InvSF (st : CG) : Prop :=
  (∀ n, n ∈ st.structs → alLookup st.struct_functions n = some []) ∧
  (∀ n l, alLookup st.struct_functions n = some l → l = [])

/-- `m` preserves the C10 invariant. -/
def IPres (m : CM α) : Prop :=
  ∀ st a st', m st = .ok (a, st') → InvSF st → InvSF st'

lemma CM_bind_inv {x : CM α} {g : α → CM β} {st st2 : CG} {b : β}
    (h : (x >>= g) st = .ok (b, st2)) :
    ∃ a st1, x st = .ok (a, st1) ∧ g a st1 = .ok (b, st2) := by
  rw [CM_run_bind] at h
  rcases hx : x st with ⟨a, st1⟩ | _ | _ <;> rw [hx] at h
  · exact ⟨a, st1, rfl, h⟩
  · cases h
  · cases h

lemma frames_bind {x : CM α} {g : α → CM β} (hx : Frames x)
    (hg : ∀ a, Frames (g a)) : Frames (x >>= g) := by
  intro st b st2 h
  obtain ⟨a, st1, h1, h2⟩ := CM_bind_inv h
  rw [hg a st1 b st2 h2, hx st a st1 h1]

lemma frames_pure (a : α) : Frames (pure a : CM α) := by
  intro st b st' h
  cases h
  rfl

lemma frames_cgGet : Frames cgGet := by
  intro st b st' h
  cases h
  rfl

lemma frames_cgErr (e : Err) : Frames (cgErr e) := by
  intro st b st' h
  cases h
  rfl

lemma frames_cgCrash : Frames (cgCrash : CM α) := by
  intro st b st' h
  cases h

lemma frames_cgOut : Frames (cgOut : CM α) := by
  intro st b st' h
  cases h

lemma frames_cgModify (g : CG → CG) (hg : ∀ st, SF (g st) = SF st) :
    Frames (cgModify g) := by
  intro st b st' h
  cases h
  exact hg st

lemma frames_ipres {m : CM α} (h : Frames m) : IPres m := by
  intro st a st' hm hi
  have hsf := h st a st' hm
  unfold SF at hsf
  have h1 : st'.structs = st.structs := congrArg Prod.fst hsf
  have h2 : st'.struct_functions = st.struct_functions := congrArg Prod.snd hsf
  unfold InvSF at hi ⊢
  rw [h1, h2]
  exact hi

lemma ipres_bind {x : CM α} {g : α → CM β} (hx : IPres x)
    (hg : ∀ a, IPres (g a)) : IPres (x >>= g) := by
  intro st b st2 h hi
  obtain ⟨a, st1, h1, h2⟩ := CM_bind_inv h
  exact hg a st1 b st2 h2 (hx st a st1 h1 hi)

lemma frames_codegen_type : ∀ f t, Frames (codegen_type f t) := by
  intro f
  induction f with
  | zero => intro t; exact frames_cgOut
  | succ f ih =>
    intro t
    cases t with
    | Int l => exact frames_pure _
    | Usize l => exact frames_pure _
    | String l => exact frames_pure _
    | CString l => exact frames_pure _
    | Char l => exact frames_pure _
    | Bool l => exact frames_pure _
    | Void l => exact frames_pure _
    | Struct n l => exact frames_pure _
    | Enum n l => exact frames_pure _
    | Function a r l =>
      exact frames_bind (frames_cgErr _) (fun _ => frames_pure _)
    | Pointer t' l => exact frames_bind (ih t') (fun _ => frames_pure _)
    | Array t' e l => exact ih t'
    | DynamicArray t' l => exact frames_bind (ih t') (fun _ => frames_pure _)
    | Volatile t' l => exact frames_bind (ih t') (fun _ => frames_pure _)
    | Const t' l => exact frames_bind (ih t') (fun _ => frames_pure _)
    | Restrict t' l => exact frames_bind (ih t') (fun _ => frames_pure _)
    | GenericType n l => exact frames_pure _
    | Unknown n l =>
      apply frames_bind frames_cgGet
      intro stA
      split
      · exact frames_pure _
      · split
        · exact frames_pure _
        · split
          · exact frames_pure _
          · split
            · exact frames_pure _
            · exact frames_bind (frames_cgErr _) (fun _ => frames_pure _)
    | Error e l =>
      exact frames_bind (frames_cgErr _) (fun _ => frames_pure _)

lemma frames_codegen_tys_comma : ∀ f tys acc, Frames (codegen_tys_comma f tys acc) := by
  intro f
  induction f with
  | zero => intro tys acc; exact frames_cgOut
  | succ f ih =>
    intro tys acc
    cases tys with
    | nil => exact frames_pure _
    | cons t rest =>
      exact frames_bind (frames_codegen_type f t) (fun s => ih rest _)

lemma frames_codegen_expression_all : ∀ f,
    (∀ e, Frames (codegen_expression f e)) ∧
    (∀ args acc, Frames (codegen_args_comma f args acc)) ∧
    (∀ ps tys i acc, Frames (gcall_defines f ps tys i acc)) := by
  intro f
  induction f with
  | zero =>
    exact ⟨fun _ => frames_cgOut, fun _ _ => frames_cgOut, fun _ _ _ _ => frames_cgOut⟩
  | succ f ih =>
    obtain ⟨ihE, ihA, ihG⟩ := ih
    refine ⟨?_, ?_, ?_⟩
    · intro e
      cases e with
      | Number n l => exact frames_pure _
      | String v l => exact frames_pure _
      | Char v l => exact frames_pure _
      | Boolean b l => exact frames_pure _
      | Identifier n l => exact frames_pure _
      | Null => exact frames_pure _
      | Call name args l =>
        apply frames_bind frames_cgGet
        intro stA
        split
        · exact frames_bind (ihA _ _) (fun _ => frames_pure _)
        · exact frames_bind (ihA _ _) (fun _ => frames_pure _)
      | GenericCall name tys args l =>
        apply frames_bind frames_cgGet
        intro stA
        split
        · exact frames_cgCrash
        · refine frames_bind (ihG _ _ _ _) (fun defs => ?_)
          refine frames_bind (ihA _ _) (fun argsStr => ?_)
          exact frames_bind (frames_cgModify _ (fun _ => rfl)) (fun _ => frames_pure _)
      | Member obj mem l =>
        cases obj
        case Identifier name l' =>
          apply frames_bind frames_cgGet
          intro stA
          repeat' split
          all_goals first
            | exact frames_pure _
            | exact frames_cgCrash
            | exact frames_bind (ihA _ _) (fun _ => frames_pure _)
            | exact frames_bind (frames_cgErr _) (fun _ => frames_pure _)
            | exact frames_bind (ihE _) (fun _ => frames_pure _)
            | exact frames_bind (ihE _)
                (fun _ => frames_bind (ihE _) (fun _ => frames_pure _))
        all_goals
          exact frames_bind (ihE _) (fun _ => frames_bind (ihE _) (fun _ => frames_pure _))
      | Grouping e' l => exact frames_bind (ihE _) (fun _ => frames_pure _)
      | NamedArgument n e' l => exact frames_bind (ihE _) (fun _ => frames_pure _)
      | Cast e' t l =>
        exact frames_bind (frames_codegen_type f t)
          (fun _ => frames_bind (ihE _) (fun _ => frames_pure _))
      | SizeOf t l =>
        exact frames_bind (frames_codegen_type f t) (fun _ => frames_pure _)
      | Index e' i l =>
        exact frames_bind (ihE _) (fun _ => frames_bind (ihE _) (fun _ => frames_pure _))
      | Array elems l => exact frames_bind (ihA _ _) (fun _ => frames_pure _)
      | New id args l => exact frames_bind (ihA _ _) (fun _ => frames_pure _)
      | Unary op operand l =>
        simp only [codegen_expression]
        split
        · exact frames_bind (ihE _) (fun _ => frames_pure _)
        · exact frames_bind (ihE _) (fun _ => frames_pure _)
        · exact frames_bind (frames_cgErr _) (fun _ => frames_pure _)
      | Binary op lhs rhs l =>
        simp only [codegen_expression]
        split
        · exact frames_bind (ihE _) (fun _ => frames_bind (ihE _) (fun _ => frames_pure _))
        · exact frames_bind (frames_cgErr _) (fun _ => frames_pure _)
      | Ternary c tB eB l =>
        exact frames_bind (ihE _) (fun _ => frames_bind (ihE _)
          (fun _ => frames_bind (ihE _) (fun _ => frames_pure _)))
      | Assignment lhs rhs l =>
        exact frames_bind (ihE _) (fun _ => frames_bind (ihE _) (fun _ => frames_pure _))
      | AddressOf e' l => exact frames_bind (ihE _) (fun _ => frames_pure _)
      | Dereference e' l => exact frames_bind (ihE _) (fun _ => frames_pure _)
      | Range lo hi l =>
        exact frames_bind (ihE _) (fun _ => frames_bind (ihE _) (fun _ => frames_pure _))
      | Error err => exact frames_bind (frames_cgErr _) (fun _ => frames_pure _)
      | Empty => exact frames_pure _
    · intro args acc
      cases args with
      | nil => exact frames_pure _
      | cons e rest => exact frames_bind (ihE e) (fun s => ihA rest _)
    · intro ps tys i acc
      cases ps with
      | nil => exact frames_pure _
      | cons p ps' =>
        have hunf : gcall_defines (f+1) (p :: ps') tys i acc =
            (match tys.get? i with
            | none => cgCrash
            | some t => fun st =>
              match codegen_type f t st with
              | .ok (s, _) =>
                gcall_defines f ps' tys (i+1)
                  (acc ++ "#define " ++ p ++ " " ++ s ++ "\n") st
              | .crash => .crash
              | .fuelOut => .fuelOut) := rfl
        rw [hunf]
        rcases hg : tys.get? i with _ | t
        · exact frames_cgCrash
        · intro st a st' h
          simp only at h
          rcases hct : codegen_type f t st with ⟨s, stX⟩ | _ | _ <;>
            rw [hct] at h
          · exact ihG ps' tys (i+1) _ st a st' h
          · cases h
          · cases h

lemma frames_codegen_expression (f : Nat) (e : Expr) : Frames (codegen_expression f e) :=
  (frames_codegen_expression_all f).1 e

lemma frames_codegen_args_comma (f : Nat) (args : List Expr) (acc : String) :
    Frames (codegen_args_comma f args acc) :=
  (frames_codegen_expression_all f).2.1 args acc

lemma invSF_of_SFeq {st st' : CG} (h : SF st' = SF st) (hi : InvSF st) : InvSF st' := by
  have h1 : st'.structs = st.structs := congrArg Prod.fst h
  have h2 : st'.struct_functions = st.struct_functions := congrArg Prod.snd h
  unfold InvSF at hi ⊢
  rw [h1, h2]
  exact hi

lemma frames_ctor_args : ∀ f tys i acc, Frames (ctor_args f tys i acc) := by
  intro f
  induction f with
  | zero => intro tys i acc; exact frames_cgOut
  | succ f ih =>
    intro tys i acc
    cases tys with
    | nil => exact frames_pure _
    | cons t rest => exact frames_bind (frames_codegen_type f t) (fun _ => ih rest _ _)

lemma frames_codegen_struct_fields (f : Nat) (name : String)
    (allFields : List (String × Ty)) :
    ∀ rem code ctor fwd, Frames (codegen_struct_fields f name allFields rem code ctor fwd) := by
  intro rem
  induction rem with
  | nil => intro code ctor fwd; exact frames_pure _
  | cons fld rest ih =>
    intro code ctor fwd
    obtain ⟨fname, ftype⟩ := fld
    cases ftype
    case Function args ret l =>
      simp only [codegen_struct_fields]
      refine frames_bind (frames_codegen_type f ret) (fun retS => ?_)
      refine frames_bind (frames_codegen_tys_comma f args "") (fun argsS => ?_)
      split
      · refine frames_bind (frames_codegen_type f ret) (fun retS2 => ?_)
        refine frames_bind (frames_ctor_args f args 0 "") (fun cArgs => ?_)
        refine frames_bind (frames_codegen_type f ret) (fun r3 => ?_)
        refine frames_bind (frames_codegen_type f ret) (fun r4 => ?_)
        refine frames_bind (frames_codegen_type f ret) (fun r5 => ?_)
        split
        · exact frames_cgCrash
        · exact ih _ _ _
      · refine frames_bind (frames_codegen_type f ret) (fun retS2 => ?_)
        refine frames_bind (frames_codegen_tys_comma f args "") (fun fArgs => ?_)
        exact ih _ _ _
    all_goals
      exact frames_bind (frames_codegen_type f _) (fun _ => ih _ _ _)

lemma alLookup_insert {α : Type} (m : List (String × α)) (k k' : String) (v : α) :
    alLookup (alInsert m k v) k' = if k = k' then some v else alLookup m k' := by
  unfold alLookup alInsert
  by_cases h : k = k'
  · subst h
    simp [List.find?_cons]
  · simp [List.find?_cons, h]

lemma ipres_codegen_struct (f : Nat) (name : String) (fields : List (String × Ty)) :
    IPres (codegen_struct f name fields) := by
  intro st a st' h hi
  obtain ⟨u, st1, h1, h2⟩ := CM_bind_inv h
  cases h1
  have hi1 : InvSF { st with
      structs := st.structs ++ [name],
      struct_fields := alInsert st.struct_fields name fields,
      struct_functions := alInsert st.struct_functions name [] } := by
    constructor
    · intro n hn
      rw [alLookup_insert]
      by_cases hne : name = n
      · simp [hne]
      · rw [if_neg hne]
        rcases List.mem_append.mp hn with hn | hn
        · exact hi.1 n hn
        · have : n = name := List.mem_singleton.mp hn
          exact absurd this.symm hne
    · intro n l hl
      rw [alLookup_insert] at hl
      by_cases hne : name = n
      · rw [if_pos hne] at hl
        exact (Option.some.inj hl).symm
      · rw [if_neg hne] at hl
        exact hi.2 n l hl
  have hrest : SF st' = SF { st with
      structs := st.structs ++ [name],
      struct_fields := alInsert st.struct_fields name fields,
      struct_functions := alInsert st.struct_functions name [] } := by
    revert h2
    split
    · intro h2
      cases h2
      rfl
    · intro h2
      obtain ⟨r, st2, hr1, hr2⟩ := CM_bind_inv h2
      cases hr2
      exact frames_codegen_struct_fields f name fields _ _ _ _ _ _ _ hr1
  exact invSF_of_SFeq hrest hi1

lemma frames_codegen_enum_values : ∀ f vars acc, Frames (codegen_enum_values f vars acc) := by
  intro f
  induction f with
  | zero => intro vars acc; exact frames_cgOut
  | succ f ih =>
    intro vars acc
    cases vars with
    | nil => exact frames_pure _
    | cons v rest =>
      exact frames_bind (frames_codegen_expression f v.2.1) (fun _ => ih rest _)

lemma frames_codegen_enum (f : Nat) (name : String) (t : Ty)
    (vars : List (String × Expr × Loc)) : Frames (codegen_enum f name t vars) := by
  unfold codegen_enum
  split
  · exact frames_bind (frames_codegen_type f _) (fun retS =>
      frames_bind (frames_codegen_tys_comma f _ _) (fun argsS =>
        frames_bind (frames_pure _) (fun header =>
          frames_bind (frames_codegen_enum_values f vars "") (fun vals =>
            frames_bind (frames_cgModify _ (fun _ => rfl)) (fun _ => frames_pure _)))))
  · exact frames_bind (frames_codegen_type f _) (fun tS =>
      frames_bind (frames_pure _) (fun header =>
        frames_bind (frames_codegen_enum_values f vars "") (fun vals =>
          frames_bind (frames_cgModify _ (fun _ => rfl)) (fun _ => frames_pure _))))

lemma frames_alias_union : ∀ f tys i acc, Frames (alias_union f tys i acc) := by
  intro f
  induction f with
  | zero => intro tys i acc; exact frames_cgOut
  | succ f ih =>
    intro tys i acc
    cases tys with
    | nil => exact frames_pure _
    | cons t rest => exact frames_bind (frames_codegen_type f t) (fun _ => ih rest _ _)

lemma frames_codegen_type_alias (f : Nat) (name : String) (tys : List Ty) :
    Frames (codegen_type_alias f name tys) := by
  unfold codegen_type_alias
  split
  · exact frames_bind (frames_codegen_type f _) (fun body =>
      frames_bind (frames_cgModify _ (fun _ => rfl)) (fun _ => frames_pure _))
  · exact frames_bind (frames_alias_union f _ _ _) (fun u =>
      frames_bind (frames_pure _) (fun body =>
        frames_bind (frames_cgModify _ (fun _ => rfl)) (fun _ => frames_pure _)))

lemma frames_codegen_variable (f : Nat) (name : String) (t : Ty) (v : Expr) :
    Frames (codegen_variable f name t v) := by
  unfold codegen_variable
  refine frames_bind (frames_cgModify _ (fun _ => rfl)) (fun _ => ?_)
  split
  · split
    · exact frames_bind (frames_codegen_type f _) (fun eS =>
        frames_bind (frames_codegen_expression f _) (fun sS =>
          frames_bind (frames_pure _) (fun y => frames_pure _)))
    · exact frames_bind (frames_codegen_type f _) (fun retS =>
        frames_bind (frames_codegen_tys_comma f _ _) (fun argsS =>
          frames_bind (frames_pure _) (fun y => frames_pure _)))
    · exact frames_bind (frames_codegen_type f _) (fun tS =>
        frames_bind (frames_pure _) (fun y => frames_pure _))
  · split
    · exact frames_bind (frames_codegen_type f _) (fun eS =>
        frames_bind (frames_codegen_expression f _) (fun sS =>
          frames_bind (frames_pure _) (fun y =>
            frames_bind (frames_codegen_expression f _) (fun vS => frames_pure _))))
    · exact frames_bind (frames_codegen_type f _) (fun retS =>
        frames_bind (frames_codegen_tys_comma f _ _) (fun argsS =>
          frames_bind (frames_pure _) (fun y =>
            frames_bind (frames_codegen_expression f _) (fun vS => frames_pure _))))
    · exact frames_bind (frames_codegen_type f _) (fun tS =>
        frames_bind (frames_pure _) (fun y =>
          frames_bind (frames_codegen_expression f _) (fun vS => frames_pure _)))

lemma frames_codegen_constant (f : Nat) (name : String) (t : Ty) (v : Expr) :
    Frames (codegen_constant f name t v) := by
  unfold codegen_constant
  refine frames_bind (frames_cgModify _ (fun _ => rfl)) (fun _ => ?_)
  exact frames_bind (frames_codegen_type f t)
    (fun _ => frames_bind (frames_codegen_expression f v) (fun _ => frames_pure _))

lemma frames_codegen_return (f : Nat) (v : Expr) : Frames (codegen_return f v) := by
  unfold codegen_return
  exact frames_bind (frames_codegen_expression f v) (fun _ => frames_pure _)

lemma frames_codegen_import (f : Nat) (p : String) : Frames (codegen_import f p) := by
  unfold codegen_import
  split
  · split
    · exact frames_cgOut
    · exact frames_pure _
  · exact frames_pure _

lemma frames_codegen_annot_statement (name : String) (fields : List (String × Ty)) :
    Frames (codegen_annot_statement name fields) := by
  unfold codegen_annot_statement
  exact frames_bind (frames_cgModify _ (fun _ => rfl)) (fun _ => frames_pure _)

lemma frames_codegen_annot (name : String) (l : Loc) : Frames (codegen_annot name l) := by
  unfold codegen_annot
  refine frames_bind frames_cgGet (fun st => ?_)
  split
  · exact frames_pure _
  · exact frames_bind (frames_cgErr _) (fun _ => frames_pure _)

lemma frames_annot_checks : ∀ annots acc, Frames (annot_checks annots acc) := by
  intro annots
  induction annots with
  | nil => intro acc; exact frames_pure _
  | cons a rest ih =>
    intro acc
    exact frames_bind (frames_codegen_annot a.name a.location) (fun _ => ih _)

lemma frames_annot_args_join : ∀ f args i total acc, Frames (annot_args_join f args i total acc) := by
  intro f
  induction f with
  | zero => intro args i total acc; exact frames_cgOut
  | succ f ih =>
    intro args i total acc
    cases args with
    | nil => exact frames_pure _
    | cons e rest =>
      exact frames_bind (frames_codegen_expression f e) (fun _ => ih rest _ _ _)

lemma frames_annot_splices : ∀ f annots code, Frames (annot_splices f annots code) := by
  intro f
  induction f with
  | zero => intro annots code; exact frames_cgOut
  | succ f ih =>
    intro annots code
    cases annots with
    | nil => exact frames_pure _
    | cons a rest =>
      exact frames_bind (frames_annot_args_join f a.arguments 0 a.arguments.length "")
        (fun _ => ih rest _)

lemma ipres_codegen_annotated (f : Nat) (inner : Stmt) (annots : List AnnotUse) :
    IPres (codegen_annotated f inner annots) := by
  unfold codegen_annotated
  refine ipres_bind (frames_ipres (frames_annot_checks annots "")) (fun code => ?_)
  split
  · refine ipres_bind (ipres_codegen_struct f _ _) (fun sS => ?_)
    refine ipres_bind (frames_ipres (frames_annot_splices f annots _)) (fun code2 => ?_)
    exact frames_ipres (frames_pure _)
  · exact frames_ipres (frames_bind (frames_cgErr _) (fun _ => frames_pure _))

lemma frames_codegen_generic_defines : ∀ f tps acc, Frames (codegen_generic_defines f tps acc) := by
  intro f
  induction f with
  | zero => intro tps acc; exact frames_cgOut
  | succ f ih =>
    intro tps acc
    cases tps with
    | nil => exact frames_pure _
    | cons p rest =>
      obtain ⟨n, b⟩ := p
      refine frames_bind (frames_cgModify _ (fun _ => rfl)) (fun _ => ?_)
      cases b with
      | some t => exact frames_bind (frames_codegen_type f t) (fun _ => ih rest _)
      | none => exact ih rest _

lemma frames_codegen_fn_params : ∀ f args code, Frames (codegen_fn_params f args code) := by
  intro f
  induction f with
  | zero => intro args code; exact frames_cgOut
  | succ f ih =>
    intro args code
    cases args with
    | nil => exact frames_pure _
    | cons a rest =>
      obtain ⟨an, aty⟩ := a
      refine frames_bind (frames_cgModify _ (fun _ => rfl)) (fun _ => ?_)
      cases aty
      case Function fargs fret l =>
        simp only [codegen_fn_params]
        exact frames_bind (frames_codegen_type f fret)
          (fun _ => frames_bind (frames_codegen_tys_comma f fargs "") (fun _ => ih rest _))
      all_goals
        exact frames_bind (frames_codegen_type f _) (fun _ => ih rest _)

lemma frames_codegen_sfn_params : ∀ f args code, Frames (codegen_sfn_params f args code) := by
  intro f
  induction f with
  | zero => intro args code; exact frames_cgOut
  | succ f ih =>
    intro args code
    cases args with
    | nil => exact frames_pure _
    | cons a rest =>
      refine frames_bind (frames_cgModify _ (fun _ => rfl)) (fun _ => ?_)
      exact frames_bind (frames_codegen_type f _) (fun _ => ih rest _)

/-- Joint invariant preservation for the statement-level mutual block. -/
lemma ipres_statement_all : ∀ f,
    (∀ s, IPres (codegen_statement f s)) ∧
    (∀ l acc, IPres (codegen_statements f l acc)) ∧
    (∀ inner tps, IPres (codegen_generic f inner tps)) ∧
    (∀ inner, IPres (codegen_external f inner)) ∧
    (∀ inner, IPres (codegen_inline f inner)) ∧
    (∀ name args ret body, IPres (codegen_function f name args ret body)) ∧
    (∀ sn n args ret body, IPres (codegen_struct_function f sn n args ret body)) ∧
    (∀ c body, IPres (codegen_while f c body)) ∧
    (∀ c b eb, IPres (codegen_if f c b eb)) := by
  intro f
  induction f with
  | zero =>
    refine ⟨?_, ?_, ?_, ?_, ?_, ?_, ?_, ?_, ?_⟩ <;>
      intros <;> exact frames_ipres frames_cgOut
  | succ f ih =>
    obtain ⟨ihS, ihL, ihG, ihX, ihI, ihF, ihSF, ihW, ihIf⟩ := ih
    refine ⟨?_, ?_, ?_, ?_, ?_, ?_, ?_, ?_, ?_⟩
    · intro s
      cases s with
      | Generic inner tps l => exact ihG inner tps
      | AnnotDecl name fields l => exact frames_ipres (frames_codegen_annot_statement name fields)
      | Annotated inner annots l => exact ipres_codegen_annotated f inner annots
      | External inner l => exact ihX inner
      | Inline inner l => exact ihI inner
      | Struct name fields l => exact ipres_codegen_struct f name fields
      | Enum name t vars l => exact frames_ipres (frames_codegen_enum f name t vars)
      | TypeAlias name tys l => exact frames_ipres (frames_codegen_type_alias f name tys)
      | Function name args ret body l => exact ihF name args ret body
      | StructFunction sn n args ret body l => exact ihSF sn n args ret body
      | Variable n t v l => exact frames_ipres (frames_codegen_variable f n t v)
      | Constant n t v l => exact frames_ipres (frames_codegen_constant f n t v)
      | Return v l => exact frames_ipres (frames_codegen_return f v)
      | Import p l => exact frames_ipres (frames_codegen_import f p)
      | While c body l => exact ihW c body
      | If c b eb l => exact ihIf c b eb
      | Expression e l =>
        exact frames_ipres (frames_bind (frames_codegen_expression f e) (fun _ => frames_pure _))
    · intro l acc
      cases l with
      | nil => exact frames_ipres (frames_pure _)
      | cons s rest => exact ipres_bind (ihS s) (fun _ => ihL rest _)
    · intro inner tps
      refine ipres_bind (frames_ipres (frames_codegen_generic_defines f tps "")) (fun defines => ?_)
      split
      · exact ipres_bind (frames_ipres (frames_cgModify _ (fun _ => rfl)))
          (fun _ => ipres_bind (ihS _) (fun bodyS => frames_ipres (frames_pure _)))
      · exact ipres_bind (frames_ipres (frames_pure _))
          (fun _ => ipres_bind (ihS _) (fun bodyS => frames_ipres (frames_pure _)))
    · intro inner
      exact ipres_bind (ihS inner) (fun _ => frames_ipres (frames_pure _))
    · intro inner
      exact ipres_bind (ihS inner) (fun _ => frames_ipres (frames_pure _))
    · intro name args ret body
      refine ipres_bind (frames_ipres (frames_codegen_type f ret)) (fun retS => ?_)
      refine ipres_bind (frames_ipres (frames_codegen_fn_params f args _)) (fun code => ?_)
      refine ipres_bind (ihL body "") (fun bodyS => ?_)
      refine ipres_bind (frames_ipres (frames_cgModify _ (fun _ => rfl))) (fun _ => ?_)
      exact frames_ipres (frames_pure _)
    · intro sn n args ret body
      refine ipres_bind (frames_ipres frames_cgGet) (fun stA => ?_)
      split
      · exact frames_ipres frames_cgCrash
      · refine ipres_bind (frames_ipres (frames_codegen_type f ret)) (fun retS => ?_)
        refine ipres_bind (frames_ipres (frames_codegen_sfn_params f args _)) (fun code => ?_)
        refine ipres_bind (ihL body "") (fun bodyS => ?_)
        refine ipres_bind (frames_ipres (frames_cgModify _ (fun _ => rfl))) (fun _ => ?_)
        exact frames_ipres (frames_pure _)
    · intro c body
      refine ipres_bind (frames_ipres (frames_codegen_expression f c)) (fun cS => ?_)
      refine ipres_bind (ihL body "") (fun bS => ?_)
      exact frames_ipres (frames_pure _)
    · intro c b eb
      refine ipres_bind (frames_ipres (frames_codegen_expression f c)) (fun cS => ?_)
      refine ipres_bind (ihL b "") (fun bS => ?_)
      split
      · exact ipres_bind (ihL eb "") (fun eS => frames_ipres (frames_pure _))
      · exact frames_ipres (frames_pure _)

lemma ipres_codegen_program_loop : ∀ f stmts code, IPres (codegen_program_loop f stmts code) := by
  intro f
  induction f with
  | zero => intro stmts code; exact frames_ipres frames_cgOut
  | succ f ih =>
    intro stmts code
    cases stmts with
    | nil => exact frames_ipres (frames_pure _)
    | cons s rest =>
      intro st a st' h hi
      obtain ⟨sC, st1, h1, h2⟩ := CM_bind_inv h
      have hi1 : InvSF st1 := (ipres_statement_all f).1 s st sC st1 h1 hi
      have h2' : (match drain_undefs st1.to_undef 0 st1.to_undef (code ++ sC) with
          | Res.ok (code', live) =>
            cgSet { st1 with to_undef := live } >>= fun _ =>
              codegen_program_loop f rest code'
          | Res.crash => cgCrash
          | Res.fuelOut => cgOut) st1 = Res.ok (a, st') := h2
      revert h2'
      rcases hd : drain_undefs st1.to_undef 0 st1.to_undef (code ++ sC) with ⟨code', live⟩ | _ | _ <;>
        intro h2'
      · obtain ⟨u, st3, h4, h5⟩ := CM_bind_inv h2'
        cases h4
        exact ih rest code' _ a st' h5 (invSF_of_SFeq rfl hi1)
      · cases h2'
      · cases h2'

/-- C10: after a successful `codegen` run, every registered struct name maps
to the empty method list — `codegen_struct_function` pushes the method name
onto a clone of the stored vector, so nothing is ever recorded. -/
theorem c10_struct_functions_stay_empty (fuel : Nat) (stmts : List Stmt)
    (code : String) (st' : CG)
    (h : codegenProgram fuel stmts = .ok (code, st')) :
    ∀ n, n ∈ st'.structs → alLookup st'.struct_functions n = some [] := by
  have hinit : InvSF initCG := by
    constructor
    · intro n hn
      cases hn
    · intro n l hl
      cases hl
  unfold codegenProgram at h
  revert h
  split
  · intro h
    cases h
    exact (ipres_codegen_program_loop fuel stmts "" initCG _ _ (by assumption) hinit).1
  · intro h
    cases h
  · intro h
    cases h

def c10Stmts : List Stmt :=
  [Stmt.Struct "S" [("x", Ty.Int ⟨0, 0⟩)] ⟨0, 0⟩,
   Stmt.StructFunction "S" "m" [] (Ty.Void ⟨0, 0⟩) [] ⟨0, 0⟩]

def c10St : CG :=
  { structs := ["S"],
    struct_fields := [("S", [("x", Ty.Int ⟨0, 0⟩)])],
    struct_functions := [("S", [])],
    enums := [], type_aliases := [], variable_types := [], parameter_types := [],
    annots := [], errors := [], generic_types := [], generic_type_names := [],
    to_undef := [] }

/-- Witness for C10: a program declaring `struct S` and then a struct
function `S::m` still ends with `struct_functions` mapping `S` to `[]`. -/
theorem c10_struct_functions_stay_empty_witness :
    alLookup c10St.struct_functions "S" = some [] :=
  c10_struct_functions_stay_empty 100 c10Stmts
    "struct S \x7b\nint x;\n\x7d;\nvoid __S_m() \x7b\n\x7d\n" c10St rfl "S" (by decide)

/-! ## Claim C4: define/undef pairing around generics -/

lemma str_empty_append (s : String) : "" ++ s = s := by
  cases s with
  | mk d => rfl

lemma str_append_empty (s : String) : s ++ "" = s := by
  cases s with
  | mk d =>
    show String.mk (d ++ []) = String.mk d
    rw [List.append_nil]

lemma str_append_assoc (a b c : String) : a ++ b ++ c = a ++ (b ++ c) := by
  cases a with
  | mk da =>
    cases b with
    | mk db =>
      cases c with
      | mk dc =>
        show String.mk (da ++ db ++ dc) = String.mk (da ++ (db ++ dc))
        rw [List.append_assoc]

/-- Spec-side shape of the `#define` block: one line per type parameter, in
order; a bounded parameter's line carries a type text after the name. -/
def DefLines : List (String × Option Ty) → String → Prop
  | [], s => s = ""
  | (n, none) :: rest, s =>
    ∃ s2, DefLines rest s2 ∧ s = "#define " ++ n ++ "\n" ++ s2
  | (n, some _) :: rest, s =>
    ∃ tS s2, DefLines rest s2 ∧ s = "#define " ++ n ++ " " ++ tS ++ "\n" ++ s2

/-- Spec-side `#undef` block: one `#undef NAME` line per type parameter. -/
def undefsBlock : List (String × Option Ty) → String
  | [] => ""
  | p :: rest => "#undef " ++ p.1 ++ "\n" ++ undefsBlock rest

lemma generic_undefs_eq : ∀ tps acc, generic_undefs tps acc = acc ++ undefsBlock tps := by
  intro tps
  induction tps with
  | nil => intro acc; exact (str_append_empty acc).symm
  | cons p rest ih =>
    intro acc
    cases p with
    | mk n b =>
      show generic_undefs rest (acc ++ "#undef " ++ n ++ "\n") = _
      rw [ih]
      simp only [undefsBlock, str_append_assoc]

lemma generic_undefs_empty (tps : List (String × Option Ty)) :
    generic_undefs tps "" = undefsBlock tps := by
  rw [generic_undefs_eq, str_empty_append]

lemma codegen_generic_defines_shape : ∀ f tps acc st out st',
    codegen_generic_defines f tps acc st = .ok (out, st') →
    ∃ s, DefLines tps s ∧ out = acc ++ s := by
  intro f
  induction f with
  | zero => intro tps acc st out st' h; cases h
  | succ f ih =>
    intro tps acc st out st' h
    cases tps with
    | nil =>
      cases h
      exact ⟨"", rfl, (str_append_empty acc).symm⟩
    | cons p rest =>
      obtain ⟨n, b⟩ := p
      obtain ⟨u, st1, h1, h2⟩ := CM_bind_inv h
      cases h1
      cases b with
      | some t =>
        obtain ⟨tS, st2, h3, h4⟩ := CM_bind_inv h2
        obtain ⟨s2, hd, he⟩ := ih rest _ _ _ _ h4
        refine ⟨"#define " ++ n ++ " " ++ tS ++ "\n" ++ s2, ⟨tS, s2, hd, rfl⟩, ?_⟩
        rw [he]
        simp only [str_append_assoc]
      | none =>
        obtain ⟨s2, hd, he⟩ := ih rest _ _ _ _ h2
        refine ⟨"#define " ++ n ++ "\n" ++ s2, ⟨s2, hd, rfl⟩, ?_⟩
        rw [he]
        simp only [str_append_assoc]

/-- C4: a successful `codegen_generic` run produces the defines block, then
the inner statement's code, then one `#undef` per parameter. -/
theorem c4_generic_define_undef_pairing (f : Nat) (inner : Stmt)
    (tps : List (String × Option Ty)) (st : CG) (out : String) (st' : CG)
    (h : codegen_generic (f+1) inner tps st = .ok (out, st')) :
    ∃ defs stA body stB stC,
      codegen_generic_defines f tps "" st = .ok (defs, stA) ∧
      DefLines tps defs ∧
      codegen_statement f inner stB = .ok (body, stC) ∧
      out = defs ++ body ++ undefsBlock tps := by
  unfold codegen_generic at h
  obtain ⟨defs, stA, h1, h2⟩ := CM_bind_inv h
  obtain ⟨s, hd, he⟩ := codegen_generic_defines_shape f tps "" st defs stA h1
  have hds : defs = s := by rw [he, str_empty_append]
  have hdefs : DefLines tps defs := by rw [hds]; exact hd
  cases inner <;>
    (obtain ⟨u, stB, h3, h4⟩ := CM_bind_inv h2;
     obtain ⟨body, stC, h5, h6⟩ := CM_bind_inv h4;
     cases h6;
     exact ⟨defs, stA, body, stB, _, h1, hdefs, h5, by rw [generic_undefs_empty]⟩)

def c4Loc : Loc := ⟨0, 0⟩

def c4Inner : Stmt :=
  Stmt.Function "id" [("x", Ty.GenericType "T" c4Loc)] (Ty.GenericType "T" c4Loc)
    [Stmt.Return (Expr.Identifier "x" c4Loc) c4Loc] c4Loc

def c4Tps : List (String × Option Ty) :=
  [("T", none), ("U", some (Ty.Int c4Loc))]

def c4Out : String :=
  "#define T\n#define U int\nT id(T x) \x7b\nreturn x;\n\x7d\n#undef T\n#undef U\n"

def c4St : CG :=
  { structs := [], struct_fields := [], struct_functions := [], enums := [],
    type_aliases := [], variable_types := [], parameter_types := [], annots := [],
    errors := [], generic_types := [("id", ["T", "U"])],
    generic_type_names := ["T", "U"], to_undef := [] }

/-- Witness for C4 at a generic identity function with parameters
`T` (unbounded) and `U: int`. -/
theorem c4_generic_define_undef_pairing_witness :
    ∃ defs stA body stB stC,
      codegen_generic_defines 99 c4Tps "" initCG = .ok (defs, stA) ∧
      DefLines c4Tps defs ∧
      codegen_statement 99 c4Inner stB = .ok (body, stC) ∧
      c4Out = defs ++ body ++ undefsBlock c4Tps :=
  c4_generic_define_undef_pairing 99 c4Inner c4Tps initCG c4Out c4St rfl

/-! ## Claim C7: Unknown type resolution order -/

/-- C7: `codegen_type` on `Unknown(name)` resolves against structs, then
enums, then type aliases, then generic parameter names, and records a
`TypeError` (emitting `ERROR`) exactly when the name is in none of the four
tables. -/
theorem c7_unknown_type_resolution (f : Nat) (n : String) (loc : Loc) (st : CG) :
    codegen_type (f+1) (Ty.Unknown n loc) st =
      (if n ∈ st.structs then Res.ok ("struct " ++ n, st)
       else if n ∈ st.enums then Res.ok ("enum " ++ n, st)
       else if n ∈ st.type_aliases then Res.ok (n, st)
       else if n ∈ st.generic_type_names then Res.ok (n, st)
       else Res.ok ("ERROR",
         { st with errors := st.errors ++ [Err.TypeError ("Unknown type " ++ n) loc] })) := by
  show ((if n ∈ st.structs then (pure ("struct " ++ n) : CM String)
    else if n ∈ st.enums then pure ("enum " ++ n)
    else if n ∈ st.type_aliases then pure n
    else if n ∈ st.generic_type_names then pure n
    else cgErr (Err.TypeError ("Unknown type " ++ n) loc) >>= fun _ => pure "ERROR") st) = _
  split_ifs <;> rfl

/-! ## Claim C8: struct calls as compound literals -/

/-- The per-argument accumulation `acc ++ piece ++ ", "` of the call
argument loop, as a pure function of the emitted pieces. -/
def trailJoin : List String → String
  | [] => ""
  | p :: rest => p ++ ", " ++ trailJoin rest

/-- Comma-separated join with no trailing separator. -/
def commaJoin : List String → String
  | [] => ""
  | [p] => p
  | p :: rest => p ++ ", " ++ commaJoin rest

lemma strPop_strPop_comma (x : String) : strPop (strPop (x ++ ", ")) = x := by
  cases x with
  | mk d =>
    show String.mk (((d ++ [',', ' ']).dropLast).dropLast) = String.mk d
    rw [show d ++ [',', ' '] = (d ++ [',']) ++ [' '] from by simp,
      List.dropLast_concat, List.dropLast_concat]

lemma trailJoin_eq_commaJoin : ∀ p ps, trailJoin (p :: ps) = commaJoin (p :: ps) ++ ", " := by
  intro p ps
  induction ps generalizing p with
  | nil => exact str_append_empty (p ++ ", ")
  | cons q qs ih =>
    show p ++ ", " ++ trailJoin (q :: qs) = (p ++ ", " ++ commaJoin (q :: qs)) ++ ", "
    rw [ih q]
    simp only [str_append_assoc]

/-- The argument pieces actually emitted by `codegen_expression` for an
argument list, with the state threaded left to right. -/
inductive ArgsPieces : Nat → List Expr → CG → List String → CG → Prop
  | nil : ∀ f st, ArgsPieces (f+1) [] st [] st
  | cons : ∀ f e rest st p st1 ps st2,
      codegen_expression f e st = .ok (p, st1) →
      ArgsPieces f rest st1 ps st2 →
      ArgsPieces (f+1) (e :: rest) st (p :: ps) st2

lemma argsPieces_length {f : Nat} {args : List Expr} {st : CG} {ps : List String}
    {st' : CG} (h : ArgsPieces f args st ps st') : ps.length = args.length := by
  induction h with
  | nil => rfl
  | cons f e rest st p st1 ps st2 h1 h2 ih => simp [ih]

lemma args_comma_pieces : ∀ f args acc st out st',
    codegen_args_comma f args acc st = .ok (out, st') →
    ∃ pieces, ArgsPieces f args st pieces st' ∧ out = acc ++ trailJoin pieces := by
  intro f
  induction f with
  | zero => intro args acc st out st' h; cases h
  | succ f ih =>
    intro args acc st out st' h
    cases args with
    | nil =>
      cases h
      exact ⟨[], ArgsPieces.nil f st, (str_append_empty acc).symm⟩
    | cons e rest =>
      obtain ⟨p, st1, h1, h2⟩ := CM_bind_inv h
      obtain ⟨ps, hap, hout⟩ := ih rest _ _ _ _ h2
      refine ⟨p :: ps, ArgsPieces.cons f e rest st p st1 ps st' h1 hap, ?_⟩
      rw [hout]
      simp only [trailJoin, str_append_assoc]

def c8Loc : Loc := ⟨0, 0⟩

def pointStmts : List Stmt :=
  [Stmt.Struct "Point" [("x", Ty.Int c8Loc), ("y", Ty.Int c8Loc)] c8Loc,
   Stmt.Variable "p" (Ty.Unknown "Point" c8Loc)
     (Expr.Call "Point" [Expr.Number 1 c8Loc, Expr.Number 2 c8Loc] c8Loc) c8Loc]

def pointSt : CG :=
  { structs := ["Point"],
    struct_fields := [("Point", [("x", Ty.Int c8Loc), ("y", Ty.Int c8Loc)])],
    struct_functions := [("Point", [])],
    enums := [], type_aliases := [],
    variable_types := [("p", Ty.Unknown "Point" c8Loc)],
    parameter_types := [], annots := [], errors := [], generic_types := [],
    generic_type_names := [], to_undef := [] }

/-- C8: a call whose name is a registered struct is emitted as the compound
literal `&(struct name)\x7bargs\x7d`, any other call as the plain C call
`name(args)`, both with comma-separated arguments and no trailing comma; and
the Point program's output contains `struct Point p = &(struct Point)\x7b1, 2\x7d;`. -/
theorem c8_call_emission :
    (∀ f name args loc st out st',
      codegen_expression (f+1) (Expr.Call name args loc) st = .ok (out, st') →
      ∃ pieces, ArgsPieces f args st pieces st' ∧ pieces.length = args.length ∧
        ((name ∈ st.structs ∧
          out = "&(struct " ++ name ++ ")\x7b" ++ commaJoin pieces ++ "\x7d") ∨
         (name ∉ st.structs ∧
          out = name ++ "(" ++ commaJoin pieces ++ ")"))) ∧
    codegenProgram 100 pointStmts =
      .ok ("struct Point \x7b\nint x;\nint y;\n\x7d;\nstruct Point p = &(struct Point)\x7b1, 2\x7d;\n",
        pointSt) := by
  constructor
  · intro f name args loc st out st' h
    have h' : (if name ∈ st.structs
        then (codegen_args_comma f args "" >>= fun argsStr =>
          pure ((if args.length > 0
            then strPop (strPop ("&(struct " ++ name ++ ")\x7b" ++ argsStr))
            else "&(struct " ++ name ++ ")\x7b" ++ argsStr) ++ "\x7d") : CM String)
        else (codegen_args_comma f args "" >>= fun argsStr =>
          pure ((if args.length > 0
            then strPop (strPop (name ++ "(" ++ argsStr))
            else name ++ "(" ++ argsStr) ++ ")"))) st = .ok (out, st') := h
    by_cases hs : name ∈ st.structs
    · rw [if_pos hs] at h'
      obtain ⟨argsStr, stA, h1, h2⟩ := CM_bind_inv h'
      cases h2
      obtain ⟨pieces, hap, hout⟩ := args_comma_pieces f args "" st argsStr _ h1
      refine ⟨pieces, hap, argsPieces_length hap, Or.inl ⟨hs, ?_⟩⟩
      rw [hout, str_empty_append]
      cases pieces with
      | nil =>
        have hlen : args.length = 0 := by rw [← argsPieces_length hap]; rfl
        rw [if_neg (by omega)]
        rfl
      | cons q qs =>
        have hpos : args.length > 0 := by
          rw [← argsPieces_length hap]; simp
        rw [if_pos hpos, trailJoin_eq_commaJoin, ← str_append_assoc, strPop_strPop_comma]
    · rw [if_neg hs] at h'
      obtain ⟨argsStr, stA, h1, h2⟩ := CM_bind_inv h'
      cases h2
      obtain ⟨pieces, hap, hout⟩ := args_comma_pieces f args "" st argsStr _ h1
      refine ⟨pieces, hap, argsPieces_length hap, Or.inr ⟨hs, ?_⟩⟩
      rw [hout, str_empty_append]
      cases pieces with
      | nil =>
        have hlen : args.length = 0 := by rw [← argsPieces_length hap]; rfl
        rw [if_neg (by omega)]
        rfl
      | cons q qs =>
        have hpos : args.length > 0 := by
          rw [← argsPieces_length hap]; simp
        rw [if_pos hpos, trailJoin_eq_commaJoin, ← str_append_assoc, strPop_strPop_comma]
  · rfl

def c8CallSt : CG := { initCG with structs := ["Point"] }

/-- Witness for C8's general clause at `Point(1, 2)` with `Point` registered. -/
theorem c8_call_emission_witness :
    ∃ pieces, ArgsPieces 99 [Expr.Number 1 c8Loc, Expr.Number 2 c8Loc] c8CallSt pieces c8CallSt ∧
      pieces.length = [Expr.Number 1 c8Loc, Expr.Number 2 c8Loc].length ∧
      (("Point" ∈ c8CallSt.structs ∧
        "&(struct Point)\x7b1, 2\x7d" = "&(struct " ++ "Point" ++ ")\x7b" ++ commaJoin pieces ++ "\x7d") ∨
       ("Point" ∉ c8CallSt.structs ∧
        "&(struct Point)\x7b1, 2\x7d" = "Point" ++ "(" ++ commaJoin pieces ++ ")")) :=
  c8_call_emission.1 99 "Point" [Expr.Number 1 c8Loc, Expr.Number 2 c8Loc] c8Loc
    c8CallSt "&(struct Point)\x7b1, 2\x7d" c8CallSt rfl

/-! ## Claim C5: member access emission -/

def c5Loc : Loc := ⟨0, 0⟩

def c5VarSt : CG := { initCG with variable_types := [("v", Ty.Int c5Loc)] }

def c5ParSt : CG :=
  { initCG with parameter_types := [("p", Ty.Pointer (Ty.Int c5Loc) c5Loc)] }

/-- C5 counterexample: a known variable of NON-pointer type `int` still gets
the arrow-and-self-insertion emission `v->f(v, 1)` for a `Call` member, and a
known parameter of pointer type gets `p->f(1)` with no self-insertion. -/
theorem c5_member_claim_counterexample :
    codegen_expression 100
        (Expr.Member (Expr.Identifier "v" c5Loc)
          (Expr.Call "f" [Expr.Number 1 c5Loc] c5Loc) c5Loc) c5VarSt =
      .ok ("v->f(v, 1)", c5VarSt) ∧
    codegen_expression 100
        (Expr.Member (Expr.Identifier "p" c5Loc)
          (Expr.Call "f" [Expr.Number 1 c5Loc] c5Loc) c5Loc) c5ParSt =
      .ok ("p->f(1)", c5ParSt) :=
  ⟨rfl, rfl⟩

lemma strPop_insert (X n : String) (pieces : List String) :
    strPop (strPop (X ++ n ++ ", " ++ trailJoin pieces)) = X ++ commaJoin (n :: pieces) := by
  cases pieces with
  | nil =>
    rw [show trailJoin ([] : List String) = "" from rfl, str_append_empty, strPop_strPop_comma]
    rfl
  | cons q qs =>
    rw [trailJoin_eq_commaJoin, ← str_append_assoc, strPop_strPop_comma]
    show X ++ n ++ ", " ++ commaJoin (q :: qs) = _
    simp only [commaJoin, str_append_assoc]

/-- C5 (actual behavior): for a `Member` on an identifier, (1) a known
variable with a `Call` member gets arrow emission with the object inserted
as first argument whatever its declared type; (2) a known variable of
pointer type with an identifier member gets `v->m`; (3) a known variable of
non-pointer type with an identifier member records a RuntimeError and emits
nothing; (4) a known parameter (not shadowed by a variable) of pointer type
gets `p->memS` with NO self-insertion, even for a `Call` member; (5) a known
non-pointer parameter records a RuntimeError. -/
theorem c5_member_actual_behavior :
    (∀ f name callee args l lc loc st out st',
      (alLookup st.variable_types name).isSome = true →
      codegen_expression (f+1)
        (Expr.Member (Expr.Identifier name l) (Expr.Call callee args lc) loc) st =
        .ok (out, st') →
      ∃ pieces, ArgsPieces f args st pieces st' ∧
        out = name ++ "->" ++ callee ++ "(" ++ commaJoin (name :: pieces) ++ ")") ∧
    (∀ f name m l lm loc st t lp,
      alLookup st.variable_types name = some (Ty.Pointer t lp) →
      codegen_expression (f+2)
        (Expr.Member (Expr.Identifier name l) (Expr.Identifier m lm) loc) st =
        .ok (name ++ "->" ++ m, st)) ∧
    (∀ f name m l lm loc st t,
      alLookup st.variable_types name = some t →
      (∀ t' lp, t ≠ Ty.Pointer t' lp) →
      codegen_expression (f+2)
        (Expr.Member (Expr.Identifier name l) (Expr.Identifier m lm) loc) st =
        .ok ("", { st with
          errors := st.errors ++ [Err.RuntimeError "Invalid member access" l] })) ∧
    (∀ f name mem l loc st t lp out st',
      alLookup st.variable_types name = none →
      alLookup st.parameter_types name = some (Ty.Pointer t lp) →
      codegen_expression (f+2) (Expr.Member (Expr.Identifier name l) mem loc) st =
        .ok (out, st') →
      ∃ memS, codegen_expression (f+1) mem st = .ok (memS, st') ∧
        out = name ++ "->" ++ memS) ∧
    (∀ f name m l lm loc st t,
      alLookup st.variable_types name = none →
      alLookup st.parameter_types name = some t →
      (∀ t' lp, t ≠ Ty.Pointer t' lp) →
      codegen_expression (f+2)
        (Expr.Member (Expr.Identifier name l) (Expr.Identifier m lm) loc) st =
        .ok ("", { st with
          errors := st.errors ++ [Err.RuntimeError "Invalid member access" l] })) := by
  refine ⟨?_, ?_, ?_, ?_, ?_⟩
  · intro f name callee args l lc loc st out st' hv h
    simp only [codegen_expression, CM_run_bind, cgGet, if_pos hv] at h
    obtain ⟨argsStr, stA, h1, h2⟩ := CM_bind_inv h
    cases h2
    obtain ⟨pieces, hap, hout⟩ := args_comma_pieces f args "" st argsStr _ h1
    refine ⟨pieces, hap, ?_⟩
    rw [hout, str_empty_append, strPop_insert]
  · intro f name m l lm loc st t lp hv
    have hc : (alLookup st.variable_types name).isSome = true := by rw [hv]; rfl
    simp only [codegen_expression, CM_run_bind, cgGet, if_pos hc, hv]
    rfl
  · intro f name m l lm loc st t hv hnp
    have hc : (alLookup st.variable_types name).isSome = true := by rw [hv]; rfl
    simp only [codegen_expression, CM_run_bind, cgGet, if_pos hc, hv]
    cases t <;> first | exact absurd rfl (hnp _ _) | rfl
  · intro f name mem l loc st t lp out st' hv hp h
    have hc : ¬ ((alLookup st.variable_types name).isSome = true) := by
      rw [hv]; simp
    have hcp : (alLookup st.parameter_types name).isSome = true := by rw [hp]; rfl
    simp only [codegen_expression, CM_run_bind, cgGet, if_neg hc, if_pos hcp, hp] at h
    obtain ⟨objS, stO, h1, h2⟩ := CM_bind_inv h
    cases h1
    obtain ⟨memS, stM, h3, h4⟩ := CM_bind_inv h2
    cases h4
    exact ⟨memS, h3, rfl⟩
  · intro f name m l lm loc st t hv hp hnp
    have hc : ¬ ((alLookup st.variable_types name).isSome = true) := by
      rw [hv]; simp
    have hcp : (alLookup st.parameter_types name).isSome = true := by rw [hp]; rfl
    simp only [codegen_expression, CM_run_bind, cgGet, if_neg hc, if_pos hcp, hp]
    cases t <;> first | exact absurd rfl (hnp _ _) | rfl

/-- Witness for C5's clause (1): the `int` variable `v` with member call
`f(1)` yields `v->f(v, 1)`. -/
theorem c5_member_actual_behavior_witness :
    ∃ pieces, ArgsPieces 99 [Expr.Number 1 c5Loc] c5VarSt pieces c5VarSt ∧
      "v->f(v, 1)" = "v" ++ "->" ++ "f" ++ "(" ++ commaJoin ("v" :: pieces) ++ ")" :=
  c5_member_actual_behavior.1 99 "v" "f" [Expr.Number 1 c5Loc] c5Loc c5Loc c5Loc
    c5VarSt "v->f(v, 1)" c5VarSt rfl rfl

/-! ## Claim C6: newline tokens and comments -/

/-- C6 counterexample: lexing `//b\nc` produces a single `Identifier c`
token — the newline that terminates the comment emits NO `Newline` token. -/
theorem c6_comment_newline_counterexample :
    lexRun 100 "//b\nc" =
      some ⟨"//b\nc".toList, [⟨.Identifier, "c", ⟨4, 5⟩⟩], 5, []⟩ ∧
    '\n' ∈ "//b\nc".toList ∧
    (∀ t, t ∈ [(⟨.Identifier, "c", ⟨4, 5⟩⟩ : Token)] → t.kind ≠ .Newline) :=
  ⟨rfl, by decide, by decide⟩

lemma skipLine_stops : ∀ f ct p q, skipLine f ct p = some q →
    ¬ (q < ct.length ∧ lxChar ct q ≠ '\n') ∧ p ≤ q := by
  intro f
  induction f with
  | zero => intro ct p q h; cases h
  | succ f ih =>
    intro ct p q h
    revert h
    simp only [skipLine]
    split
    · intro h
      obtain ⟨h1, h2⟩ := ih ct (p+1) q h
      exact ⟨h1, by omega⟩
    · intro h
      injection h with hq
      subst hq
      exact ⟨by assumption, Nat.le_refl p⟩

set_option maxHeartbeats 1600000 in
/-- C6 (actual behavior): a newline reached directly by the scan emits a
`Newline` token, but a `//` comment consumes through the first newline at or
after the `//` (continuing at the position one past it) and pushes no token
at all; `skipLine` indeed stops only at a newline or at end of input. -/
theorem c6_newline_and_comment_behavior :
    (∀ f st, st.current < st.contents.length →
      lxChar st.contents st.current = '\n' →
      lexLoop (f+1) st =
        lexLoop f (pushTok { st with current := st.current + 1 } .Newline "\n"
          (st.current + 1) (st.current + 1))) ∧
    (∀ f st q, st.current < st.contents.length →
      lxChar st.contents st.current = '/' →
      lxChar st.contents (st.current + 1) = '/' →
      skipLine f st.contents (st.current + 2) = some q →
      lexLoop (f+1) st = lexLoop f { st with current := q + 1 }) ∧
    (∀ f ct p q, skipLine f ct p = some q →
      (q ≥ ct.length ∨ lxChar ct q = '\n') ∧ p ≤ q) := by
  refine ⟨?_, ?_, ?_⟩
  · intro f st hlt hc
    simp only [lexLoop, if_pos hlt, hc]
    rw [if_neg (by decide : ¬(('\n' : Char) = '\t' ∨ ('\n' : Char) = ' ' ∨ ('\n' : Char) = '\r')),
      if_pos (trivial : True)]
  · intro f st q hlt hc1 hc2 hskip
    simp only [lexLoop, if_pos hlt, hc1, hc2, hskip]
    rw [if_neg (by decide : ¬(('/' : Char) = '\t' ∨ ('/' : Char) = ' ' ∨ ('/' : Char) = '\r')),
      if_neg (by decide : ¬(('/' : Char) = '\n')),
      if_neg (by decide : ¬(('/' : Char).isAlpha = true ∨ ('/' : Char) = '_')),
      if_neg (by decide : ¬(('/' : Char) = quoteChar)),
      if_neg (by decide : ¬(('/' : Char) = apostChar)),
      if_neg (by decide : ¬(('/' : Char).isDigit = true)),
      if_neg (by decide : ¬(('/' : Char) = ':')),
      if_neg (by decide : ¬(('/' : Char) = ',')),
      if_neg (by decide : ¬(('/' : Char) = '.')),
      if_neg (by decide : ¬(('/' : Char) = '@')),
      if_neg (by decide : ¬(('/' : Char) = '|')),
      if_neg (by decide : ¬(('/' : Char) = '&')),
      if_neg (by decide : ¬(('/' : Char) = '(')),
      if_neg (by decide : ¬(('/' : Char) = ')')),
      if_neg (by decide : ¬(('/' : Char) = '[')),
      if_neg (by decide : ¬(('/' : Char) = ']')),
      if_neg (by decide : ¬(('/' : Char) = '=')),
      if_neg (by decide : ¬(('/' : Char) = '!')),
      if_neg (by decide : ¬(('/' : Char) = '<')),
      if_neg (by decide : ¬(('/' : Char) = '>')),
      if_neg (by decide : ¬(('/' : Char) = '+')),
      if_neg (by decide : ¬(('/' : Char) = '-')),
      if_neg (by decide : ¬(('/' : Char) = '*')),
      if_pos (trivial : True), if_pos (trivial : True)]
  · intro f ct p q h
    obtain ⟨h1, h2⟩ := skipLine_stops f ct p q h
    refine ⟨?_, h2⟩
    by_cases hq : q < ct.length
    · right
      by_cases hn : lxChar ct q = '\n'
      · exact hn
      · exact absurd ⟨hq, hn⟩ h1
    · left
      omega

/-- Witness for C6's comment clause on `//b\nc`: the comment branch jumps
from position 0 to position 4 (one past the newline) with no token pushed. -/
theorem c6_newline_and_comment_behavior_witness :
    lexLoop 100 (⟨"//b\nc".toList, [], 0, []⟩ : LexSt) =
      lexLoop 99 ⟨"//b\nc".toList, [], 4, []⟩ :=
  c6_newline_and_comment_behavior.2.1 99 ⟨"//b\nc".toList, [], 0, []⟩ 3
    (by decide) rfl rfl rfl

/-! ## Claim C9: string escape handling -/

/-- C9 counterexample: lexing `"a\qbc"` records the invalid-escape error but
the resulting string token is `ac` — the `b` immediately after the invalid
escape was skipped, not processed normally. -/
theorem c9_invalid_escape_counterexample :
    lexRun 100 "\"a\\qbc\"" =
      some ⟨"\"a\\qbc\"".toList,
        [⟨.StringLit, "ac", ⟨0, 7⟩⟩], 7,
        [Err.SyntaxError "Invalid escape sequence" ⟨3, 3⟩]⟩ :=
  rfl

/-- C9 (actual behavior): the seven escapes map to their emitted texts
(`\'` to a bare apostrophe); a valid escape appends the mapped text and
continues at the character after the escape, while an invalid escape records
a `SyntaxError` and continues THREE positions on — skipping the character
immediately after the invalid escape instead of processing it. -/
theorem c9_escape_behavior :
    (escMap 'n' = some "\\n" ∧ escMap 't' = some "\\t" ∧ escMap 'r' = some "\\r" ∧
     escMap '0' = some "\\0" ∧ escMap apostChar = some (Char.toString apostChar) ∧
     escMap quoteChar = some (Char.toString backslashChar ++ Char.toString quoteChar) ∧
     escMap backslashChar =
       some (Char.toString backslashChar ++ Char.toString backslashChar)) ∧
    (∀ f term ct p acc errs s,
      p < ct.length → lxChar ct p ≠ term → lxChar ct p = backslashChar →
      escMap (lxChar ct (p+1)) = some s →
      scanQuoted (f+1) term ct p acc errs = scanQuoted f term ct (p+2) (acc ++ s) errs) ∧
    (∀ f term ct p acc errs,
      p < ct.length → lxChar ct p ≠ term → lxChar ct p = backslashChar →
      escMap (lxChar ct (p+1)) = none →
      scanQuoted (f+1) term ct p acc errs =
        scanQuoted f term ct (p+3) acc
          (errs ++ [Err.SyntaxError "Invalid escape sequence" ⟨p+1, p+1⟩])) := by
  refine ⟨⟨rfl, rfl, rfl, rfl, rfl, rfl, rfl⟩, ?_, ?_⟩
  · intro f term ct p acc errs s hp hne hb hesc
    simp only [scanQuoted, hb, hesc]
    rw [if_pos (And.intro hp (hb ▸ hne)), if_pos (trivial : True)]
  · intro f term ct p acc errs hp hne hb hesc
    simp only [scanQuoted, hb, hesc]
    rw [if_pos (And.intro hp (hb ▸ hne)), if_pos (trivial : True)]

/-- Witness for C9's invalid-escape clause inside `"a\qbc"`: from position 2
the scan jumps to position 5, recording the error and skipping `b`. -/
theorem c9_escape_behavior_witness :
    scanQuoted 100 quoteChar ("\"a\\qbc\"".toList) 2 "a" [] =
      scanQuoted 99 quoteChar ("\"a\\qbc\"".toList) 5 "a"
        [Err.SyntaxError "Invalid escape sequence" ⟨3, 3⟩] :=
  c9_escape_behavior.2.2 99 quoteChar ("\"a\\qbc\"".toList) 2 "a" []
    (by decide) (by decide) rfl rfl
